import Mathlib

/-!
Verification of the llamadb SQL engine specification against the source.

The development is a shallow embedding of the relevant Rust modules:
`byteutils.rs`, `types/variant.rs`, `types/f64nonan.rs`, `types/mod.rs`,
`columnvalueops.rs`, `identifier.rs`, `tempdb/table.rs`, `tempdb/mod.rs`,
`queryplan/mod.rs`, `queryplan/sexpression.rs`, `queryplan/source.rs`,
`queryplan/execute/mod.rs`, `queryplan/execute/aggregate.rs` and
`queryplan/execute/groupbuckets.rs`.

Conventions used throughout:
* Machine bytes are `Nat` values below 256; byte buffers are `List Nat`.
* Rust `u64`/`i64` become `Nat`/`Int` with explicit wrapping (`% 2^64`)
  where the source relies on modular semantics.
* Fallible Rust code (`Result`, `Option`) is embedded with `Option`; a
  possible Rust panic (a failed `assert!` or `.unwrap()`) is made explicit
  through the `PRes` result type below, whose `crash` constructor marks the
  panicking executions.
* `f64` values are embedded by their IEEE-754 binary64 bit pattern, which is
  exactly the representation the source manipulates in `write_dbfloat` /
  `read_dbfloat` and hashes in `F64NoNaN`.
-/

namespace LlamaDb

/-- Result of running a piece of Rust code that may panic: either a value, or
`crash`, which marks executions that abort through a failed `assert!`,
`unimplemented!` or `.unwrap()`. -/
inductive PRes (α : Type) where
  | ok (val : α)
  | crash
deriving Repr, DecidableEq

namespace PRes

def bind {α β : Type} : PRes α → (α → PRes β) → PRes β
  | .ok a, f => f a
  | .crash, _ => .crash

instance : Monad PRes where
  pure := .ok
  bind := PRes.bind

@[simp] theorem bind_ok {α β : Type} (a : α) (f : α → PRes β) :
    PRes.bind (.ok a) f = f a := rfl

@[simp] theorem bind_crash {α β : Type} (f : α → PRes β) :
    PRes.bind .crash f = .crash := rfl

end PRes

/-! ### Bitwise toolkit

Arithmetic characterisations of the `^^^`, `|||` and shift operations the
Rust source uses, needed to reason about the order-preserving encodings. -/

/-- Flipping the single bit `k` of `a * 2^(k+1) + b * 2^k + c` (with `b < 2`,
`c < 2^k`) replaces `b` by `1 - b`. -/
theorem xor_two_pow_decomp (a b c k : Nat) (hb : b < 2) (hc : c < 2 ^ k) :
    (a * 2 ^ (k + 1) + b * 2 ^ k + c) ^^^ 2 ^ k
      = a * 2 ^ (k + 1) + (1 - b) * 2 ^ k + c := by
  apply Nat.eq_of_testBit_eq
  intro i
  have hp : 2 ^ (k + 1) = 2 ^ k * 2 := Nat.pow_succ ..
  have hb1 : b * 2 ^ k ≤ 1 * 2 ^ k := Nat.mul_le_mul_right _ (by omega)
  have hb2 : (1 - b) * 2 ^ k ≤ 1 * 2 ^ k := Nat.mul_le_mul_right _ (by omega)
  have hlt : b * 2 ^ k + c < 2 ^ (k + 1) := by rw [hp]; omega
  have hlt' : (1 - b) * 2 ^ k + c < 2 ^ (k + 1) := by rw [hp]; omega
  rw [Nat.testBit_xor]
  rw [show a * 2 ^ (k + 1) + b * 2 ^ k + c = 2 ^ (k + 1) * a + (b * 2 ^ k + c) by ring]
  rw [show a * 2 ^ (k + 1) + (1 - b) * 2 ^ k + c = 2 ^ (k + 1) * a + ((1 - b) * 2 ^ k + c) by ring]
  rw [Nat.testBit_mul_pow_two_add _ hlt, Nat.testBit_mul_pow_two_add _ hlt']
  rw [show b * 2 ^ k + c = 2 ^ k * b + c by ring, show (1 - b) * 2 ^ k + c = 2 ^ k * (1 - b) + c by ring]
  rcases Nat.lt_trichotomy i k with h | h | h
  · have : i < k + 1 := by omega
    simp [this, Nat.testBit_mul_pow_two_add _ hc, h,
      Nat.testBit_two_pow_of_ne (by omega : k ≠ i)]
  · subst h
    have : i < i + 1 := by omega
    simp [this, Nat.testBit_mul_pow_two_add _ hc, Nat.testBit_two_pow_self]
    interval_cases b <;> simp [Nat.testBit_to_div_mod]
  · by_cases h' : i < k + 1
    · omega
    · simp [h', Nat.testBit_mul_pow_two_add _ hc,
        Nat.testBit_two_pow_of_ne (by omega : k ≠ i)]

/-- Every natural splits as `high * 2^(k+1) + bit_k * 2^k + low`. -/
theorem bit_decomposition (x k : Nat) :
    x = x / 2 ^ (k + 1) * 2 ^ (k + 1) + x / 2 ^ k % 2 * 2 ^ k + x % 2 ^ k := by
  have e3 : x / 2 ^ k / 2 = x / 2 ^ (k + 1) := by
    rw [Nat.div_div_eq_div_mul, Nat.pow_succ]
  calc x = 2 ^ k * (x / 2 ^ k) + x % 2 ^ k := (Nat.div_add_mod _ _).symm
    _ = 2 ^ k * (2 * (x / 2 ^ k / 2) + x / 2 ^ k % 2) + x % 2 ^ k := by
          rw [Nat.div_add_mod (x / 2 ^ k) 2]
    _ = x / 2 ^ k / 2 * 2 ^ (k + 1) + x / 2 ^ k % 2 * 2 ^ k + x % 2 ^ k := by
          rw [Nat.pow_succ]; ring
    _ = _ := by rw [e3]

/-- Flipping bit `k` adds `2^k` when that bit is clear. -/
theorem xor_two_pow_of_testBit_false {x k : Nat} (h : x.testBit k = false) :
    x ^^^ 2 ^ k = x + 2 ^ k := by
  have hb : x / 2 ^ k % 2 = 0 := by
    rw [Nat.testBit_to_div_mod] at h
    simpa using h
  have hx := bit_decomposition x k
  rw [hb] at hx
  conv_lhs => rw [hx]
  rw [xor_two_pow_decomp _ 0 _ _ (by omega) (Nat.mod_lt _ (Nat.two_pow_pos k))]
  simp at hx ⊢
  omega

/-- Flipping bit `k` subtracts `2^k` when that bit is set. -/
theorem xor_two_pow_of_testBit_true {x k : Nat} (h : x.testBit k = true) :
    x ^^^ 2 ^ k = x - 2 ^ k := by
  have hb : x / 2 ^ k % 2 = 1 := by
    rw [Nat.testBit_to_div_mod] at h
    simpa using h
  have hx := bit_decomposition x k
  rw [hb] at hx
  conv_lhs => rw [hx]
  rw [xor_two_pow_decomp _ 1 _ _ (by omega) (Nat.mod_lt _ (Nat.two_pow_pos k))]
  simp at hx ⊢
  omega

/-- XOR with an all-ones mask is complement below `2^w`. -/
theorem xor_ones {x w : Nat} (h : x < 2 ^ w) :
    x ^^^ (2 ^ w - 1) = 2 ^ w - 1 - x := by
  apply Nat.eq_of_testBit_eq
  intro i
  rw [Nat.testBit_xor, Nat.testBit_two_pow_sub_one]
  rcases Nat.lt_or_ge i w with hi | hi
  · rw [show 2 ^ w - 1 - x = 2 ^ w - (x + 1) by omega,
      Nat.testBit_two_pow_sub_succ h]
    simp [hi]
  · have hxw : 2 ^ w ≤ 2 ^ i := Nat.pow_le_pow_right (by omega) hi
    have h1 : x.testBit i = false := Nat.testBit_lt_two_pow (lt_of_lt_of_le h hxw)
    have h2 : (2 ^ w - 1 - x).testBit i = false := Nat.testBit_lt_two_pow (by omega)
    simp [h1, h2, Nat.not_lt.mpr hi]

/-! ### Machine integer helpers -/

/-- Reinterpret a `u64` bit pattern as an `i64` (two's complement transmute). -/
def i64ofU64 (u : Nat) : Int :=
  if u < 2 ^ 63 then (u : Int) else (u : Int) - 2 ^ 64

/-- Reinterpret an `i64` as a `u64` bit pattern (two's complement transmute). -/
def u64ofI64 (v : Int) : Nat :=
  (v % (2 ^ 64 : Int)).toNat

/-- Wrapping `i64` arithmetic: reduce an integer into `[-2^63, 2^63)`. -/
def wrapI64 (z : Int) : Int :=
  (z + 2 ^ 63) % (2 ^ 64 : Int) - 2 ^ 63

/-! ### byteutils.rs

Byte buffers are big-endian lists of byte values.  `write_udbinteger` fills a
buffer of a given length, so the Lean versions take the length explicitly. -/

/-- `byteutils::read_udbinteger` (sans its `assert!`, which is checked at the
call sites that could violate it): big-endian fold of the bytes. -/
def read_udbinteger (bytes : List Nat) : Nat :=
  bytes.foldl (fun prev v => (prev <<< 8) ||| v) 0

/-- `byteutils::read_sdbinteger`: unbias the unsigned read.  For an 8-byte
buffer the Rust constant `1 << (n * 8 - 1)` itself wraps to `i64::MIN`,
which `wrapI64` reproduces. -/
def read_sdbinteger (bytes : List Nat) : Int :=
  let value := read_udbinteger bytes
  let n := bytes.length
  let half : Int := wrapI64 (2 ^ (n * 8 - 1))
  wrapI64 (i64ofU64 value - half)

/-- `byteutils::write_udbinteger` into a buffer of length `len`:
byte `i` is `(value & (0xFF << (j*8))) >> (j*8)` with `j = len - 1 - i`. -/
def write_udbinteger (value : Nat) (len : Nat) : List Nat :=
  (List.range len).map (fun i =>
    let j := len - 1 - i
    (value &&& (0xFF <<< (j * 8))) >>> (j * 8))

/-- `byteutils::write_sdbinteger`: bias by flipping the top bit of the
two's-complement pattern, then write unsigned. -/
def write_sdbinteger (value : Int) (len : Nat) : List Nat :=
  let half : Nat := 2 ^ (len * 8 - 1)
  write_udbinteger (u64ofI64 value ^^^ half) len

/-! ### IEEE-754 binary64 model (types/f64nonan.rs and the f64 primitives)

The Rust source manipulates `f64` values through their bit patterns
(`transmute` in byteutils.rs, bit hashing in f64nonan.rs), so floats are
embedded as their binary64 bit pattern (a `Nat` below `2^64`).  The numeric
order on non-NaN floats is recovered through the standard sign-magnitude key:
`±0.0` share key `0`, negative values get negative keys. -/

/-- True when a bit pattern encodes an IEEE-754 binary64 NaN. -/
def f64IsNaN (bits : Nat) : Bool :=
  decide (bits / 2 ^ 52 % 2 ^ 11 = 2047) && decide (bits % 2 ^ 52 ≠ 0)

/-- The sign-magnitude comparison key: IEEE ordering of two non-NaN doubles
is exactly the integer ordering of their keys (with `-0.0 = +0.0`). -/
def f64Key (bits : Nat) : Int :=
  if bits < 2 ^ 63 then (bits : Int) else (2 ^ 63 : Int) - bits

/-- IEEE `<` on non-NaN doubles. -/
def f64Lt (a b : Nat) : Bool := decide (f64Key a < f64Key b)

/-- IEEE `==` on non-NaN doubles (`-0.0 == +0.0`). -/
def f64Eq (a b : Nat) : Bool := decide (f64Key a = f64Key b)

/-- Bit pattern of `-0.0`. -/
def f64NegZero : Nat := 2 ^ 63

/-- Round `num / den` (positive, `den ≠ 0`) to the nearest binary64,
ties to even, overflowing to infinity; returns the bit pattern with the
given sign.  This is the rounding IEEE-754 prescribes for every inexact
operation, used below to model `+` and the int-to-float casts. -/
def ratToF64bits (sign : Bool) (num den : Nat) : Nat :=
  let signBit : Nat := if sign then 2 ^ 63 else 0
  if num = 0 ∨ den = 0 then signBit else
  -- e with 2^e ≤ num/den < 2^(e+1)
  let d : Int := (Nat.log2 num : Int) - Nat.log2 den
  let e : Int :=
    if 0 ≤ d then (if den * 2 ^ d.toNat ≤ num then d else d - 1)
    else (if num * 2 ^ (-d).toNat < den then d - 1 else d)
  let t : Int := max (e - 52) (-1074)
  let scaledNum := if t ≤ 0 then num * 2 ^ (-t).toNat else num
  let scaledDen := if t ≤ 0 then den else den * 2 ^ t.toNat
  let q := scaledNum / scaledDen
  let r := scaledNum % scaledDen
  let m := if 2 * r > scaledDen ∨ (2 * r = scaledDen ∧ q % 2 = 1) then q + 1 else q
  if m = 0 then signBit
  else if m < 2 ^ 52 then signBit + m          -- subnormal (t = -1074 here)
  else
    let mt : Nat × Int := if m = 2 ^ 53 then (2 ^ 52, t + 1) else (m, t)
    let biased : Int := mt.2 + 1075
    if 2047 ≤ biased then signBit + 2047 * 2 ^ 52   -- infinity
    else signBit + biased.toNat * 2 ^ 52 + (mt.1 - 2 ^ 52)

/-- Round the dyadic `M * 2^e` to the nearest binary64 bit pattern. -/
def dyadicToF64bits (M : Int) (e : Int) : Nat :=
  if 0 ≤ e then ratToF64bits (M < 0) (M.natAbs * 2 ^ e.toNat) 1
  else ratToF64bits (M < 0) M.natAbs (2 ^ (-e).toNat)

/-- Classification of a binary64 bit pattern. -/
inductive F64Class where
  | nan
  | inf (sign : Bool)
  | finite (M : Int) (e : Int)    -- value = M * 2^e
deriving Repr, DecidableEq

/-- Decode a bit pattern into its exact value (or NaN / infinity). -/
def f64Classify (bits : Nat) : F64Class :=
  let sign := bits / 2 ^ 63 % 2 = 1
  let efield : Nat := bits / 2 ^ 52 % 2 ^ 11
  let m : Nat := bits % 2 ^ 52
  if efield = 2047 then
    if m = 0 then .inf sign else .nan
  else
    let A : Nat := if efield = 0 then m else 2 ^ 52 + m
    let e : Int := if efield = 0 then -1074 else (efield : Int) - 1075
    .finite (if sign then -(A : Int) else (A : Int)) e

/-- Bit pattern of a canonical quiet NaN. -/
def f64CanonicalNaN : Nat := 2047 * 2 ^ 52 + 2 ^ 51

/-- Bit pattern of infinity with the given sign. -/
def f64Inf (sign : Bool) : Nat :=
  (if sign then 2 ^ 63 else 0) + 2047 * 2 ^ 52

/-- Models Rust `f64` addition (IEEE-754 `+` with round-to-nearest-even) on
bit patterns: exact sum of the two dyadic values, then rounding.  The zero
result keeps IEEE's sign rule (`-0 + -0 = -0`, cancellation gives `+0`). -/
def f64Add (a b : Nat) : Nat :=
  match f64Classify a, f64Classify b with
  | .nan, _ => f64CanonicalNaN
  | _, .nan => f64CanonicalNaN
  | .inf s1, .inf s2 => if s1 = s2 then f64Inf s1 else f64CanonicalNaN
  | .inf s1, .finite _ _ => f64Inf s1
  | .finite _ _, .inf s2 => f64Inf s2
  | .finite M1 e1, .finite M2 e2 =>
    if M1 = 0 ∧ M2 = 0 then
      if 2 ^ 63 ≤ a ∧ 2 ^ 63 ≤ b then f64NegZero else 0
    else
      let e := min e1 e2
      let M := M1 * 2 ^ (e1 - e).toNat + M2 * 2 ^ (e2 - e).toNat
      dyadicToF64bits M e

/-- Models the Rust cast `i as f64` (round to nearest). -/
def i64ToF64bits (n : Int) : Nat := dyadicToF64bits n 0

/-! ### byteutils.rs, float encoding -/

/-- `byteutils::read_dbfloat` (sans its length-8 `assert!`, checked at the
call site): undo the order-preserving bias, returning the raw bit pattern. -/
def read_dbfloat (bytes : List Nat) : Nat :=
  let raw := read_udbinteger bytes
  if bytes.headD 0 < 0x80 then raw ^^^ (2 ^ 64 - 1) else raw ^^^ 2 ^ 63

/-- `byteutils::write_dbfloat`: flip all bits of a negative value, only the
sign bit otherwise.  The test is the IEEE comparison `value < 0.0`,
which is false for `-0.0`. -/
def write_dbfloat (bits : Nat) : List Nat :=
  if f64Lt bits 0 then write_udbinteger (bits ^^^ (2 ^ 64 - 1)) 8
  else write_udbinteger (bits ^^^ 2 ^ 63) 8

/-! ### Text helpers (ASCII byte lists)

Rust `String` values own a UTF-8 byte buffer, and every string operation the
engine performs (ordering, equality, concatenation, encoding) works on that
buffer, so strings are embedded as byte lists. -/

/-- Decimal digits of a natural number, as ASCII bytes. -/
def natDecimalBytes (n : Nat) : List Nat :=
  (Nat.toDigits 10 n).map Char.toNat

/-- Decimal rendering of an integer, as ASCII bytes. -/
def intDecimalBytes (n : Int) : List Nat :=
  if n < 0 then 45 :: natDecimalBytes n.natAbs else natDecimalBytes n.natAbs

/-- The Rust `{:?}` rendering of a `Vec<u8>`: `[1, 2, 3]`. -/
def debugListBytes (v : List Nat) : List Nat :=
  91 :: (List.intercalate [44, 32] (v.map natDecimalBytes)) ++ [93]

/-- UTF-8 validity of a byte list (the exact condition for a Rust `String`
to hold these bytes: no overlong forms, no surrogates, max U+10FFFF). -/
def utf8IsValid : List Nat → Bool
  | [] => true
  | b :: rest =>
    if b < 0x80 then utf8IsValid rest
    else if 0xC2 ≤ b ∧ b ≤ 0xDF then
      match rest with
      | b1 :: r => (0x80 ≤ b1 && b1 ≤ 0xBF) && utf8IsValid r
      | [] => false
    else if b = 0xE0 then
      match rest with
      | b1 :: b2 :: r => (0xA0 ≤ b1 && b1 ≤ 0xBF) && (0x80 ≤ b2 && b2 ≤ 0xBF) && utf8IsValid r
      | _ => false
    else if (0xE1 ≤ b ∧ b ≤ 0xEC) ∨ b = 0xEE ∨ b = 0xEF then
      match rest with
      | b1 :: b2 :: r => (0x80 ≤ b1 && b1 ≤ 0xBF) && (0x80 ≤ b2 && b2 ≤ 0xBF) && utf8IsValid r
      | _ => false
    else if b = 0xED then
      match rest with
      | b1 :: b2 :: r => (0x80 ≤ b1 && b1 ≤ 0x9F) && (0x80 ≤ b2 && b2 ≤ 0xBF) && utf8IsValid r
      | _ => false
    else if b = 0xF0 then
      match rest with
      | b1 :: b2 :: b3 :: r => (0x90 ≤ b1 && b1 ≤ 0xBF) && (0x80 ≤ b2 && b2 ≤ 0xBF) &&
          (0x80 ≤ b3 && b3 ≤ 0xBF) && utf8IsValid r
      | _ => false
    else if 0xF1 ≤ b ∧ b ≤ 0xF3 then
      match rest with
      | b1 :: b2 :: b3 :: r => (0x80 ≤ b1 && b1 ≤ 0xBF) && (0x80 ≤ b2 && b2 ≤ 0xBF) &&
          (0x80 ≤ b3 && b3 ≤ 0xBF) && utf8IsValid r
      | _ => false
    else if b = 0xF4 then
      match rest with
      | b1 :: b2 :: b3 :: r => (0x80 ≤ b1 && b1 ≤ 0x8F) && (0x80 ≤ b2 && b2 ≤ 0xBF) &&
          (0x80 ≤ b3 && b3 ≤ 0xBF) && utf8IsValid r
      | _ => false
    else false

/-- Model of `String::from_utf8_lossy`: the identity on valid UTF-8 (which is
the only case the verified claims exercise — every hypothesis guards it).
On invalid input, std replaces invalid sequences; this model collapses the
whole input to one U+FFFD replacement character instead, a documented
simplification that no theorem below depends on. -/
def utf8Lossy (bs : List Nat) : List Nat :=
  if utf8IsValid bs then bs else [0xEF, 0xBF, 0xBD]

/-- Lexicographic comparison of byte lists (-1 / 0 / 1), which is exactly the
`Ord` instance Rust uses for both `Vec<u8>` and `String`. -/
def bytesCmp : List Nat → List Nat → Int
  | [], [] => 0
  | [], _ :: _ => -1
  | _ :: _, [] => 1
  | a :: as_, b :: bs =>
    if a < b then -1 else if b < a then 1 else bytesCmp as_ bs

/-- Strict lexicographic byte order (the `BTreeSet<Vec<u8>>` ordering). -/
def bytesLt (a b : List Nat) : Bool := decide (bytesCmp a b = -1)

/-! ### types/mod.rs: DbType -/

/-- `types::DbType`. -/
inductive DbType where
  | null
  | byteDynamic
  | byteFixed (n : Nat)
  | integer (signed : Bool) (bytes : Nat)
  | f64
  | string
deriving Repr, DecidableEq

namespace DbType

/-- `DbType::get_fixed_length`. -/
def get_fixed_length : DbType → Option Nat
  | .null => some 0
  | .byteDynamic => none
  | .byteFixed n => some n
  | .integer _ bytes => some bytes
  | .f64 => some 8
  | .string => none

/-- `DbType::is_variable_length`. -/
def is_variable_length (t : DbType) : Bool :=
  match t.get_fixed_length with
  | some _ => false
  | none => true

/-- `DbType::is_valid_length`. -/
def is_valid_length (t : DbType) (length : Nat) : Bool :=
  match t with
  | .null => length = 0
  | .byteDynamic => true
  | .byteFixed bytes => length = bytes
  | .integer _ bytes => length = bytes
  | .f64 => length = 8
  | .string => true

/-- `DbType::get_default`. -/
def get_default : DbType → List Nat
  | .null => []
  | .byteDynamic => []
  | .byteFixed bytes => List.replicate bytes 0
  | .integer false bytes => List.replicate bytes 0
  | .integer true bytes => 0x80 :: List.replicate (bytes - 1) 0
  | .f64 => [0x80, 0, 0, 0, 0, 0, 0, 0]
  | .string => [0]

/-- Parse decimal ASCII digits with an exclusive upper bound (models the
overflow failure of Rust integer `FromStr`). -/
def parseBoundedDigits (s : List Nat) (bound : Nat) : Option Nat :=
  if s.isEmpty then none
  else if s.all (fun c => 48 ≤ c ∧ c ≤ 57) then
    let v := s.foldl (fun acc c => acc * 10 + (c - 48)) 0
    if v < bound then some v else none
  else none

/-- `DbType::from_identifier`.  The identifier is already normalized
(lowercase ASCII bytes); `array_size` mirrors the `Option<Option<u64>>`. -/
def from_identifier (ident : List Nat) (array_size : Option (Option Nat)) : Option DbType :=
  if ident = [98, 121, 116, 101] then        -- "byte"
    match array_size with
    | none => some (.integer false 1)
    | some none => some .byteDynamic
    | some (some v) => some (.byteFixed v)
  else if (ident = [102, 54, 52] ∨ ident = [100, 111, 117, 98, 108, 101]) ∧ array_size = none then
    some .f64                                -- "f64" | "double"
  else if (ident = [115, 116, 114, 105, 110, 103] ∨ ident = [118, 97, 114, 99, 104, 97, 114]) ∧ array_size = none then
    some .string                             -- "string" | "varchar"
  else if (ident = [105, 110, 116] ∨ ident = [105, 110, 116, 101, 103, 101, 114]) ∧ array_size = none then
    some (.integer true 4)                   -- "int" | "integer"
  else if array_size = none then
    if 2 ≤ ident.length then
      match parseBoundedDigits ident.tail 256 with   -- `ident[1..].parse::<u8>()`
      | none => none
      | some bits =>
        if bits < 8 ∨ bits > 64 then none
        else if bits % 8 ≠ 0 then none
        else
          let bytes := bits / 8
          if ident.headD 0 = 117 then some (.integer false bytes)       -- 'u'
          else if ident.headD 0 = 105 then some (.integer true bytes)   -- 'i'
          else none
    else none
  else none

end DbType

/-! ### types/variant.rs: Variant -/

/-- `types::Variant`.  Strings are their UTF-8 byte buffers; floats are
binary64 bit patterns. -/
inductive Variant where
  | null
  | bytes (v : List Nat)
  | stringLiteral (s : List Nat)
  | signedInteger (v : Int)
  | unsignedInteger (v : Nat)
  | float (bits : Nat)
deriving Repr, DecidableEq

namespace Variant

/-- `fn from_bool` in variant.rs. -/
def from_bool (value : Bool) : Variant :=
  .unsignedInteger (if value then 1 else 0)

/-- `Variant::get_dbtype`. -/
def get_dbtype : Variant → DbType
  | .null => .null
  | .bytes v => .byteFixed v.length
  | .stringLiteral _ => .string
  | .signedInteger _ => .integer true 8
  | .unsignedInteger _ => .integer false 8
  | .float _ => .f64

/-- The Rust type invariant of `Variant` (enforced by Rust's types, made
explicit here): byte buffers hold bytes, strings hold valid UTF-8, machine
integers are 64-bit, floats are non-NaN 64-bit patterns. -/
def wellFormed : Variant → Prop
  | .null => True
  | .bytes v => ∀ b ∈ v, b < 256
  | .stringLiteral s => utf8IsValid s = true
  | .signedInteger v => -(2 ^ 63) ≤ v ∧ v < 2 ^ 63
  | .unsignedInteger v => v < 2 ^ 64
  | .float bits => bits < 2 ^ 64 ∧ f64IsNaN bits = false

instance (v : Variant) : Decidable (wellFormed v) := by
  cases v <;> simp [wellFormed] <;> infer_instance

/-- The `Display` rendering of a `Variant`, as bytes.  Exact for every
variant except non-integral floats: Rust prints the shortest decimal that
round-trips, while this model prints the exact decimal expansion.  No
verified claim depends on a non-integral float rendering. -/
def displayBytes : Variant → List Nat
  | .null => [78, 85, 76, 76]                 -- "NULL"
  | .bytes v => debugListBytes v              -- Debug formatting `{:?}`
  | .stringLiteral s => s
  | .signedInteger n => intDecimalBytes n
  | .unsignedInteger n => natDecimalBytes n
  | .float bits =>
    match f64Classify bits with
    | .nan => [78, 97, 78]                    -- "NaN"
    | .inf sign => if sign then [45, 105, 110, 102] else [105, 110, 102]
    | .finite M e =>
      if M = 0 then (if bits = f64NegZero then [45, 48] else [48])
      else
        let sgn : List Nat := if M < 0 then [45] else []
        if 0 ≤ e then sgn ++ natDecimalBytes (M.natAbs * 2 ^ e.toNat)
        else
          let k := (-e).toNat
          let ipart := M.natAbs / 2 ^ k
          let frac := M.natAbs % 2 ^ k
          let fracDigits := natDecimalBytes (frac * 5 ^ k)
          let padded := List.replicate (k - fracDigits.length) 48 ++ fracDigits
          let trimmed := (padded.reverse.dropWhile (fun c => c = 48)).reverse
          sgn ++ natDecimalBytes ipart ++ [46] ++ (if trimmed.isEmpty then [48] else trimmed)

/-- `Variant::from_bytes` (the `ColumnValueOps` impl).  `crash` marks the
paths where the Rust code would panic: the length `assert!`s inside
`read_udbinteger` / `read_dbfloat` and the `F64NoNaN::new(..).unwrap()`
on NaN bit patterns. -/
def from_bytes (dbtype : DbType) (bytes : List Nat) : PRes (Option Variant) :=
  match dbtype with
  | .null => .ok (some .null)
  | .byteDynamic => .ok (some (.bytes bytes))
  | .byteFixed n => if bytes.length = n then .ok (some (.bytes bytes)) else .ok none
  | .integer signed n =>
    if bytes.length = n then
      if 1 ≤ n ∧ n ≤ 8 then
        .ok (some (if signed then .signedInteger (read_sdbinteger bytes)
                   else .unsignedInteger (read_udbinteger bytes)))
      else .crash
    else .ok none
  | .f64 =>
    if bytes.length = 8 then
      let f := read_dbfloat bytes
      if f64IsNaN f then .crash else .ok (some (.float f))
    else .crash
  | .string =>
    if 0 < bytes.length ∧ bytes.getLast? = some 0 then
      .ok (some (.stringLiteral (utf8Lossy bytes.dropLast)))
    else .ok none

/-- `Variant::cast` specialised to the value's own `DbType`
(`self.cast(self.get_dbtype())`), evaluated arm by arm; defined separately
only to break the `cast` → `to_bytes` → `cast` recursion of the source,
which is well-founded precisely because the inner cast is at the value's
own type. -/
def castOwn : Variant → PRes (Option Variant)
  | .null => .ok (some .null)
  | .bytes b => from_bytes (.byteFixed b.length) b  -- the `(Bytes, v)` arm
  | .stringLiteral s => .ok (some (.stringLiteral s))
  | .signedInteger v => .ok (some (.signedInteger v))
  | .unsignedInteger v => .ok (some (.unsignedInteger v))
  | .float b => .ok (some (.float b))

/-- `Variant::to_bytes` specialised to the value's own `DbType`
(used by the `(e, DbType::ByteDynamic)` arm of `cast`). -/
def toBytesOwn (self : Variant) : PRes (Option (List Nat)) :=
  PRes.bind (castOwn self) fun s? =>
    match s? with
    | none => .ok none
    | some s =>
      match s, self.get_dbtype with
      | .null, .null => .ok none
      | .bytes v, .byteDynamic => .ok (some v)
      | .stringLiteral s, .string => .ok (some (s ++ [0]))
      | .signedInteger v, .integer true n =>
        if 1 ≤ n ∧ n ≤ 8 then .ok (some (write_sdbinteger v n)) else .crash
      | .unsignedInteger v, .integer false n =>
        if 1 ≤ n ∧ n ≤ 8 then .ok (some (write_udbinteger v n)) else .crash
      | .float v, .f64 => .ok (some (write_dbfloat v))
      | _, _ => .ok none

/-- Models the Rust cast `f as i64` / `f as u64` (truncation toward zero,
saturating at the bounds, NaN to 0 — today's defined Rust semantics). -/
def truncF64 (signed : Bool) (bits : Nat) : Variant :=
  let clampS : Int → Int := fun z => max (-(2 ^ 63)) (min (2 ^ 63 - 1) z)
  let clampU : Int → Nat := fun z => (max 0 (min ((2 ^ 64 : Int) - 1) z)).toNat
  match f64Classify bits with
  | .nan => if signed then .signedInteger 0 else .unsignedInteger 0
  | .inf sign =>
    if signed then .signedInteger (if sign then -(2 ^ 63) else 2 ^ 63 - 1)
    else .unsignedInteger (if sign then 0 else 2 ^ 64 - 1)
  | .finite M e =>
    let tr : Int := if 0 ≤ e then M * 2 ^ e.toNat else M / 2 ^ (-e).toNat
    if signed then .signedInteger (clampS tr) else .unsignedInteger (clampU tr)

/-- `Variant::cast`.  Arms in source order; the first six are the identity
group.  `crash` can only arise through `from_bytes` (length asserts, NaN). -/
def cast (self : Variant) (dbtype : DbType) : PRes (Option Variant) :=
  match self, dbtype with
  | .null, .null => .ok (some .null)
  | .bytes b, .byteDynamic => .ok (some (.bytes b))
  | .stringLiteral s, .string => .ok (some (.stringLiteral s))
  | .signedInteger v, .integer true _ => .ok (some (.signedInteger v))
  | .unsignedInteger v, .integer false _ => .ok (some (.unsignedInteger v))
  | .float b, .f64 => .ok (some (.float b))
  | e, .string => .ok (some (.stringLiteral e.displayBytes))
  | e, .byteDynamic =>
    PRes.bind (toBytesOwn e) fun bs? =>
      match bs? with
      | some bs => .ok (some (.bytes bs))
      | none => .ok none
  | .bytes b, t => from_bytes t b
  | .float f, .integer signed _ => .ok (some (truncF64 signed f))
  | .unsignedInteger v, .f64 =>
    let bits := dyadicToF64bits (v : Int) 0
    .ok (some (.float bits))
  | .signedInteger v, .f64 => .ok (some (.float (i64ToF64bits v)))
  | .unsignedInteger v, .integer true _ => .ok (some (.signedInteger (i64ofU64 v)))
  | .signedInteger v, .integer false _ => .ok (some (.unsignedInteger (u64ofI64 v)))
  | _, _ => .ok none

/-- `Variant::to_bytes`: cast to the target type, then encode. -/
def to_bytes (self : Variant) (dbtype : DbType) : PRes (Option (List Nat)) :=
  PRes.bind (cast self dbtype) fun s? =>
    match s? with
    | none => .ok none
    | some s =>
      match s, dbtype with
      | .null, .null => .ok none
      | .bytes v, .byteDynamic => .ok (some v)
      | .stringLiteral s, .string => .ok (some (s ++ [0]))
      | .signedInteger v, .integer true n =>
        if 1 ≤ n ∧ n ≤ 8 then .ok (some (write_sdbinteger v n)) else .crash
      | .unsignedInteger v, .integer false n =>
        if 1 ≤ n ∧ n ≤ 8 then .ok (some (write_udbinteger v n)) else .crash
      | .float v, .f64 => .ok (some (write_dbfloat v))
      | _, _ => .ok none

/-- Signed 64-bit three-way comparison (-1/0/1). -/
def cmpI (l r : Int) : Int := if l < r then -1 else if r < l then 1 else 0

/-- Unsigned three-way comparison (-1/0/1). -/
def cmpN (l r : Nat) : Int := if l < r then -1 else if r < l then 1 else 0

/-- `Variant::compare`: cast `rhs` to the type of `self` and compare.
`.ok none` is the Rust `None`; `crash` marks the `unreachable!()` arm and
any panicking cast.  Floats compare by IEEE `<` (via their key). -/
def compare (self rhs : Variant) : PRes (Option Int) :=
  let dbtype := self.get_dbtype
  PRes.bind (cast rhs dbtype) fun r? =>
    match r? with
    | none => .ok none
    | some r =>
      match self, r with
      | .null, _ => .ok none
      | _, .null => .ok none
      | .unsignedInteger l, .unsignedInteger r => .ok (some (cmpN l r))
      | .signedInteger l, .signedInteger r => .ok (some (cmpI l r))
      | .float l, .float r =>
        .ok (some (if f64Lt l r then -1 else if f64Lt r l then 1 else 0))
      | .bytes l, .bytes r => .ok (some (bytesCmp l r))
      | .stringLiteral l, .stringLiteral r => .ok (some (bytesCmp l r))
      | _, _ => .crash    -- unreachable!()

/-- `Variant::concat`. -/
def concat (self rhs : Variant) : PRes Variant :=
  match self, rhs with
  | .stringLiteral l, .stringLiteral r => .ok (.stringLiteral (l ++ r))
  | .stringLiteral l, rhs =>
    PRes.bind (cast rhs .string) fun r? =>
      match r? with
      | some (.stringLiteral r) => .ok (.stringLiteral (l ++ r))
      | some _ => .ok (.stringLiteral l)   -- cast to String always returns a string
      | none => .ok (.stringLiteral l)
  | e, _ => .ok e

/-- `Variant::to_3vl` (`ColumnValueOps`). -/
def to_3vl : Variant → Int
  | .null => 0
  | .bytes v => if v.isEmpty then -1 else 1
  | .stringLiteral s => if s.isEmpty then -1 else 1
  | .signedInteger n => if n ≠ 0 then 1 else -1
  | .unsignedInteger n => if n ≠ 0 then 1 else -1
  | .float n => if f64Key n ≠ 0 then 1 else -1   -- `*n != 0.0`

/-- `Variant::from_3vl`; the catch-all arm is the Rust `panic!()`. -/
def from_3vl (value : Int) : PRes Variant :=
  if value = -1 then .ok (from_bool false)
  else if value = 0 then .ok .null
  else if value = 1 then .ok (from_bool true)
  else .crash

/-- `Variant::from_string_literal` (always succeeds). -/
def from_string_literal (s : List Nat) : Variant := .stringLiteral s

/-- `Variant::from_u64`. -/
def from_u64 (v : Nat) : Variant := .unsignedInteger v

/-- `Variant::from_f64` (`F64NoNaN::new(value).unwrap()`). -/
def from_f64 (bits : Nat) : PRes Variant :=
  if f64IsNaN bits then .crash else .ok (.float bits)

/-- `Variant::to_f64`: cast to F64, `Err` unless the result is a float. -/
def to_f64 (self : Variant) : PRes (Option Nat) :=
  PRes.bind (cast self .f64) fun n? =>
    match n? with
    | some (.float f) => .ok (some f)
    | _ => .ok none

end Variant

/-! ### Number literal parsing (`from_number_literal`) -/

/-- Rust `u64::from_str`: optional `+`, one or more digits, overflow fails. -/
def parseU64 (s : List Nat) : Option Nat :=
  let digits := if s.headD 0 = 43 then s.tail else s
  DbType.parseBoundedDigits digits (2 ^ 64)

/-- Rust `i64::from_str`: optional sign, digits, range check. -/
def parseI64 (s : List Nat) : Option Int :=
  if s.headD 0 = 45 then
    match DbType.parseBoundedDigits s.tail (2 ^ 63 + 1) with
    | some v => some (-(v : Int))
    | none => none
  else
    let digits := if s.headD 0 = 43 then s.tail else s
    match DbType.parseBoundedDigits digits (2 ^ 63) with
    | some v => some (v : Int)
    | none => none

/-- All-decimal-digit check with value (no emptiness requirement). -/
def digitsValue? (s : List Nat) : Option Nat :=
  if s.all (fun c => 48 ≤ c ∧ c ≤ 57) then
    some (s.foldl (fun acc c => acc * 10 + (c - 48)) 0)
  else none

/-- Rust `f64::from_str` on the decimal forms
`[sign] digits [. digits] [(e|E) [sign] digits]`, plus `inf` / `NaN`:
correctly rounded to nearest.  Exponents are clamped to `±1100` before
scaling (beyond that the value saturates to `±inf` / `±0` regardless of the
mantissa, so the clamp does not change any result). -/
def parseF64Rust (s : List Nat) : Option Nat :=
  let (sign, rest) :=
    if s.headD 0 = 45 then (true, s.tail)
    else if s.headD 0 = 43 then (false, s.tail) else (false, s)
  if rest = [105, 110, 102] ∨ rest = [105, 110, 102, 105, 110, 105, 116, 121] then
    some (f64Inf sign)
  else if rest = [78, 97, 78] ∨ rest = [110, 97, 110] then
    some f64CanonicalNaN
  else
    let (mant, expo) :=
      match rest.splitOnP (fun c => c = 101 ∨ c = 69) with
      | [m] => (m, some 0)
      | [m, e] =>
        let (esign, edigits) :=
          if e.headD 0 = 45 then (true, e.tail)
          else if e.headD 0 = 43 then (false, e.tail) else (false, e)
        (m, (digitsValue? edigits).bind (fun v =>
              if edigits.isEmpty then none
              else some (if esign then -(min v 1100 : Int) else (min v 1100 : Int))))
      | _ => (rest, none)
    match expo with
    | none => none
    | some e10 =>
      match mant.splitOnP (fun c => c = 46) with
      | [ip] =>
        match digitsValue? ip with
        | some v =>
          if ip.isEmpty then none
          else if v = 0 then some (if sign then f64NegZero else 0)
          else some (ratToF64bits sign (v * 10 ^ (max e10 0).toNat) (10 ^ (max (-e10) 0).toNat))
        | none => none
      | [ip, fp] =>
        match digitsValue? ip, digitsValue? fp with
        | some vi, some vf =>
          if ip.isEmpty ∧ fp.isEmpty then none
          else
            let num := vi * 10 ^ fp.length + vf
            if num = 0 then some (if sign then f64NegZero else 0)
            else some (ratToF64bits sign (num * 10 ^ (max e10 0).toNat)
                        (10 ^ fp.length * 10 ^ (max (-e10) 0).toNat))
        | _, _ => none
      | _ => none

namespace Variant

/-- `Variant::from_number_literal`: try `u64`, then `i64`, then `f64`.
Parsing `NaN` reaches the `F64NoNaN::new(..).unwrap()` panic. -/
def from_number_literal (s : List Nat) : PRes (Option Variant) :=
  match parseU64 s with
  | some n => .ok (some (.unsignedInteger n))
  | none =>
    match parseI64 s with
    | some n => .ok (some (.signedInteger n))
    | none =>
      match parseF64Rust s with
      | some bits => if f64IsNaN bits then .crash else .ok (some (.float bits))
      | none => .ok none

/-! ### columnvalueops.rs: `ColumnValueOpsExt` -/

/-- `ColumnValueOpsExt::null()`. -/
def nullValue : Variant := .null

/-- `ColumnValueOpsExt::equals`. -/
def equals (self rhs : Variant) : PRes Variant :=
  PRes.bind (compare self rhs) fun c =>
    from_3vl (match c with
      | none => 0
      | some 0 => 1
      | some _ => -1)

/-- `ColumnValueOpsExt::not_equals`. -/
def not_equals (self rhs : Variant) : PRes Variant :=
  PRes.bind (compare self rhs) fun c =>
    from_3vl (match c with
      | none => 0
      | some 0 => -1
      | some _ => 1)

/-- `ColumnValueOpsExt::less_than`. -/
def less_than (self rhs : Variant) : PRes Variant :=
  PRes.bind (compare self rhs) fun c =>
    from_3vl (match c with
      | none => 0
      | some (-1) => 1
      | some _ => -1)

/-- `ColumnValueOpsExt::greater_than`. -/
def greater_than (self rhs : Variant) : PRes Variant :=
  PRes.bind (compare self rhs) fun c =>
    from_3vl (match c with
      | none => 0
      | some 1 => 1
      | some _ => -1)

/-- `ColumnValueOpsExt::less_than_or_equal`. -/
def less_than_or_equal (self rhs : Variant) : PRes Variant :=
  PRes.bind (compare self rhs) fun c =>
    from_3vl (match c with
      | none => 0
      | some (-1) => 1
      | some 0 => 1
      | some _ => -1)

/-- `ColumnValueOpsExt::greater_than_or_equal`. -/
def greater_than_or_equal (self rhs : Variant) : PRes Variant :=
  PRes.bind (compare self rhs) fun c =>
    from_3vl (match c with
      | none => 0
      | some 0 => 1
      | some 1 => 1
      | some _ => -1)

/-- `ColumnValueOpsExt::is_null`. -/
def is_null (self : Variant) : Bool := self.to_3vl = 0

/-- `ColumnValueOpsExt::tests_true`. -/
def tests_true (self : Variant) : Bool := self.to_3vl = 1

/-- `ColumnValueOpsExt::not` (3VL negation). -/
def notOp (self : Variant) : PRes Variant := from_3vl (-self.to_3vl)

/-- `ColumnValueOpsExt::and` (3VL minimum). -/
def andOp (self rhs : Variant) : PRes Variant :=
  let l := self.to_3vl
  let r := rhs.to_3vl
  from_3vl (if l < r then l else r)

/-- `ColumnValueOpsExt::or` (3VL maximum). -/
def orOp (self rhs : Variant) : PRes Variant :=
  let l := self.to_3vl
  let r := rhs.to_3vl
  from_3vl (if l > r then l else r)

end Variant

end LlamaDb



namespace LlamaDb

/-! ### identifier.rs -/

/-- An identifier is a normalized (lowercase) ASCII byte string. -/
abbrev Identifier := List Nat

/-- The `is_valid` check inside `identifier::normalize`. -/
def identIsValid (value : List Nat) : Bool :=
  match value with
  | [] => false
  | c :: _ =>
    if (48 ≤ c ∧ c ≤ 57) ∨ c = 32 then false
    else value.all (fun c =>
      (97 ≤ c ∧ c ≤ 122) ∨ (65 ≤ c ∧ c ≤ 90) ∨ (48 ≤ c ∧ c ≤ 57) ∨ c = 95 ∨ c = 32)

/-- `identifier::normalize`: validate, then fold to ASCII lowercase. -/
def normalize (value : List Nat) : Option Identifier :=
  if identIsValid value then
    some (value.map (fun c => if 65 ≤ c ∧ c ≤ 90 then c + 32 else c))
  else none

/-! ### queryplan/execute/aggregate.rs

The five stateful aggregators.  `feed` may panic (`to_f64().unwrap()` in
Avg and Sum) and `compare` inside Min/Max may panic, hence `PRes`. -/

/-- IEEE-754 binary64 division on bit patterns (used by `Avg::finish`). -/
def f64Div (a b : Nat) : Nat :=
  match f64Classify a, f64Classify b with
  | .nan, _ => f64CanonicalNaN
  | _, .nan => f64CanonicalNaN
  | .inf _, .inf _ => f64CanonicalNaN
  | .inf s1, .finite M2 _ => f64Inf (s1 ≠ decide (M2 < 0))
  | .finite M1 _, .inf s2 => if (M1 < 0) ≠ s2 then f64NegZero else 0
  | .finite M1 e1, .finite M2 e2 =>
    let sign := decide (M1 < 0) ≠ decide (M2 < 0)
    if M2 = 0 then
      if M1 = 0 then f64CanonicalNaN else f64Inf sign
    else if M1 = 0 then (if sign then f64NegZero else 0)
    else
      ratToF64bits sign (M1.natAbs * 2 ^ (e1 - e2).toNat) (M2.natAbs * 2 ^ (e2 - e1).toNat)

/-- The state of one aggregator (`Count`, `Avg`, `Sum`, `Min`, `Max`).
Running float sums are kept as bit patterns. -/
inductive AggState where
  | count (n : Nat)
  | avg (sum : Nat) (n : Nat)
  | sum (sumBits : Nat) (n : Nat)
  | min (v : Option Variant)
  | max (v : Option Variant)
deriving Repr, DecidableEq

namespace AggState

/-- `AggregateFunction::feed`.  The Avg/Sum arms are the literal
`self.sum += value.to_f64().unwrap()` — `crash` when the cast fails. -/
def feed (state : AggState) (value : Variant) : PRes AggState :=
  match state with
  | .count n => .ok (.count (if value.is_null then n else n + 1))
  | .avg s n =>
    if value.is_null then .ok (.avg s n)
    else
      PRes.bind (value.to_f64) fun f? =>
        match f? with
        | some f => .ok (.avg (f64Add s f) (n + 1))
        | none => .crash                   -- .unwrap() on Err
  | .sum s n =>
    if value.is_null then .ok (.sum s n)
    else
      PRes.bind (value.to_f64) fun f? =>
        match f? with
        | some f => .ok (.sum (f64Add s f) (n + 1))
        | none => .crash                   -- .unwrap() on Err
  | .min v =>
    if value.is_null then .ok (.min v)
    else
      match v with
      | some r =>
        PRes.bind (value.compare r) fun c =>
          .ok (.min (if c = some (-1) then some value else some r))
      | none => .ok (.min (some value))
  | .max v =>
    if value.is_null then .ok (.max v)
    else
      match v with
      | some r =>
        PRes.bind (value.compare r) fun c =>
          .ok (.max (if c = some 1 then some value else some r))
      | none => .ok (.max (some value))

/-- `AggregateFunction::finish`. -/
def finish (state : AggState) : PRes Variant :=
  match state with
  | .count n => .ok (Variant.from_u64 n)
  | .avg s n =>
    if n = 0 then .ok .null
    else Variant.from_f64 (f64Div s (dyadicToF64bits (n : Int) 0))
  | .sum s n => if n = 0 then .ok .null else Variant.from_f64 s
  | .min v => .ok (v.getD .null)
  | .max v => .ok (v.getD .null)

end AggState

/-- `get_aggregate_function`: the initial state for each operator. -/
inductive AggregateOp where
  | count
  | avg
  | sum
  | min
  | max
deriving Repr, DecidableEq

def get_aggregate_function : AggregateOp → AggState
  | .count => .count 0
  | .avg => .avg 0 0
  | .sum => .sum 0 0
  | .min => .min none
  | .max => .max none

/-! ### tempdb/table.rs -/

/-- `tempdb::table::Column`. -/
structure Column where
  offset : Nat
  name : Identifier
  dbtype : DbType
  nullable : Bool
deriving Repr, DecidableEq

/-- `tempdb::table::Table`.  The `BTreeSet<Vec<u8>>` index is embedded as a
lexicographically sorted duplicate-free list (its iteration order). -/
structure Table where
  name : Identifier
  columns : List Column
  next_rowid : Nat
  rowid_index : List (List Nat)
deriving Repr, DecidableEq

/-- `BTreeSet::insert` on the sorted-list model. -/
def btreeInsert (key : List Nat) : List (List Nat) → List (List Nat)
  | [] => [key]
  | k :: rest =>
    if bytesLt key k then key :: k :: rest
    else if key = k then k :: rest
    else k :: btreeInsert key rest

/-- The per-column body of `Table::insert_row`: builds the key fragment and
the footer of variable lengths; `.ok none` is the `ValidationError` return,
`crash` the failed `assert`s. -/
def insertRowColumns : List (Column × (List Nat × Option Bool)) →
    PRes (Option (List Nat × List Nat))
  | [] => .ok (some ([], []))
  | (column, (data, is_null)) :: rest =>
    let len := data.length
    let step : PRes (Option (List Nat × Bool)) :=
      match is_null with
      | some true => if len ≠ 0 then .crash else .ok (some ([1], false))
      | some false => .ok (some ([0], true))
      | none => .ok (some ([], true))
    PRes.bind step fun s? =>
      match s? with
      | none => .ok none
      | some (flag, append_data) =>
        if append_data then
          if column.dbtype.is_valid_length len then
            let lengthEntry :=
              if column.dbtype.is_variable_length then write_udbinteger len 8 else []
            if column.nullable ≠ is_null.isSome then .crash   -- assert_eq!
            else
              PRes.bind (insertRowColumns rest) fun r? =>
                match r? with
                | none => .ok none
                | some (keyRest, lengthsRest) =>
                  .ok (some (flag ++ data ++ keyRest, lengthEntry ++ lengthsRest))
          else .ok none                                       -- ValidationError
        else
          PRes.bind (insertRowColumns rest) fun r? =>
            match r? with
            | none => .ok none
            | some (keyRest, lengthsRest) =>
              .ok (some (flag ++ keyRest, lengthsRest))

/-- `Table::insert_row`. -/
def Table.insert_row (table : Table) (column_data : List (List Nat × Option Bool)) :
    PRes (Option Table) :=
  if table.columns.length ≠ column_data.length then .crash    -- assert_eq!
  else
    PRes.bind (insertRowColumns (table.columns.zip column_data)) fun r? =>
      match r? with
      | none => .ok none
      | some (body, lengths) =>
        let key := write_udbinteger table.next_rowid 8 ++ body ++ lengths
        .ok (some { table with
          rowid_index := btreeInsert key table.rowid_index
          next_rowid := table.next_rowid + 1 })

/-! ### tempdb/mod.rs: ScanGroup -/

/-- Decode the per-column values of one row key (the closure inside
`ScanGroup::iter`).  Walks the columns keeping the running `key_offset` and
the remaining tail of `variable_lengths`; `crash` marks out-of-bounds
indexing and the `from_bytes(..).unwrap()`. -/
def scanColumns (raw_key : List Nat) : List Column → Nat → List Nat →
    PRes (List Variant)
  | [], _, _ => .ok []
  | column :: rest, key_offset, variable_lengths =>
    let nullStep : PRes (Bool × Nat) :=
      if column.nullable then
        if key_offset < raw_key.length then
          .ok (((raw_key.getD key_offset 0) ≠ 0, key_offset + 1))
        else .crash                                          -- index out of bounds
      else .ok (false, key_offset)
    PRes.bind nullStep fun (is_null, key_offset) =>
      if is_null then
        PRes.bind (scanColumns raw_key rest key_offset variable_lengths) fun vs =>
          .ok (Variant.null :: vs)
      else
        let sizeStep : PRes (Nat × List Nat) :=
          match column.dbtype.get_fixed_length with
          | some l => .ok (l, variable_lengths)
          | none =>
            match variable_lengths with
            | l :: ls => .ok (l, ls)
            | [] => .crash                                   -- index out of bounds
        PRes.bind sizeStep fun (size, variable_lengths) =>
          if key_offset + size ≤ raw_key.length then
            let bytes := (raw_key.drop key_offset).take size
            PRes.bind (Variant.from_bytes column.dbtype bytes) fun v? =>
              match v? with
              | some v =>
                PRes.bind (scanColumns raw_key rest (key_offset + size) variable_lengths) fun vs =>
                  .ok (v :: vs)
              | none => .crash                               -- .unwrap() on Err
          else .crash                                        -- slice out of bounds

/-- Decode one full row key (the body of the `map` in `ScanGroup::iter`):
read the footer of variable lengths, skip the rowid, decode the columns. -/
def scanRowFromKey (columns : List Column) (raw_key : List Nat) : PRes (List Variant) :=
  let variable_column_count := (columns.filter (fun c => c.dbtype.is_variable_length)).length
  if raw_key.length < variable_column_count * 8 ∨ raw_key.length < 8 then .crash
  else
    let footerStart := raw_key.length - variable_column_count * 8
    let variable_lengths := (List.range variable_column_count).map (fun i =>
      read_udbinteger ((raw_key.drop (footerStart + i * 8)).take 8))
    scanColumns raw_key columns 8 variable_lengths

/-- `ScanGroup::iter` / `DatabaseStorage::scan_table` for `TempDb`: decode
every key of the index, in its (sorted) iteration order. -/
def Table.scan (table : Table) : PRes (List (List Variant)) :=
  table.rowid_index.foldr
    (fun key acc =>
      PRes.bind (scanRowFromKey table.columns key) fun row =>
      PRes.bind acc fun rows => .ok (row :: rows))
    (.ok [])

end LlamaDb

namespace LlamaDb

/-! ### sqlsyntax/ast.rs

The AST as consumed by queryplan/mod.rs and tempdb/mod.rs.  The checked-in
ast.rs is an older revision (it lacks `IdentMember`, `Null`, `Subquery` and
the required subquery alias that the compiler matches on); the shape below
is the one the compiler destructures, which is what the claims are about. -/

inductive AstUnaryOp where
  | negate
deriving Repr, DecidableEq

inductive AstBinaryOp where
  | equal | notEqual | lessThan | lessThanOrEqual | greaterThan | greaterThanOrEqual
  | and | or | add | subtract | multiply | divide | bitAnd | bitOr | concatenate
deriving Repr, DecidableEq

inductive AstJoinOperator where
  | left | inner
deriving Repr, DecidableEq

/-- `ast::Table`. -/
structure AstTable where
  database_name : Option (List Nat)
  table_name : List Nat
deriving Repr, DecidableEq

mutual

inductive AstExpression where
  | ident (s : List Nat)
  | identMember (s1 s2 : List Nat)
  | stringLiteral (s : List Nat)
  | number (s : List Nat)
  | nullLiteral
  | subquery (stmt : SelectStatement)
  | functionCall (name : List Nat) (arguments : List AstExpression)
  | functionCallAggregateAll (name : List Nat)
  | unaryOp (op : AstUnaryOp) (expr : AstExpression)
  | binaryOp (op : AstBinaryOp) (lhs rhs : AstExpression)

inductive SelectColumn where
  | allColumns
  | expr (e : AstExpression) (aliasName : Option (List Nat))

inductive AstTableOrSubquery where
  | subquery (sub : SelectStatement) (aliasName : List Nat)
  | table (table : AstTable) (aliasName : Option (List Nat))

inductive AstJoin where
  | mk (operator : AstJoinOperator) (table : AstTableOrSubquery) (onExpr : AstExpression)

inductive AstFrom where
  | cross (tables : List AstTableOrSubquery)
  | join (table : AstTableOrSubquery) (joins : List AstJoin)

inductive SelectStatement where
  | mk (result_columns : List SelectColumn) (from_ : AstFrom)
       (where_expr : Option AstExpression) (group_by : List AstExpression)
       (having : Option AstExpression) (order_by : List AstExpression)

end

namespace SelectStatement

def result_columns : SelectStatement → List SelectColumn
  | .mk rc _ _ _ _ _ => rc

def from_ : SelectStatement → AstFrom
  | .mk _ f _ _ _ _ => f

def where_expr : SelectStatement → Option AstExpression
  | .mk _ _ w _ _ _ => w

def group_by : SelectStatement → List AstExpression
  | .mk _ _ _ g _ _ => g

def having : SelectStatement → Option AstExpression
  | .mk _ _ _ _ h _ => h

def order_by : SelectStatement → List AstExpression
  | .mk _ _ _ _ _ o => o

end SelectStatement

/-! ### queryplan/sexpression.rs

The plan IR.  `LeftJoin` does not appear in the checked-in sexpression.rs
but is constructed by queryplan/mod.rs; its fields here are the ones that
construction supplies. -/

inductive UnaryOp where
  | negate
deriving Repr, DecidableEq

inductive BinaryOp where
  | equal | notEqual | lessThan | lessThanOrEqual | greaterThan | greaterThanOrEqual
  | and | or | add | subtract | multiply | divide | bitAnd | bitOr | concatenate
deriving Repr, DecidableEq

/-- `SExpression`.  `Scan` stores the scanned table's (unique) name, standing
in for the Rust `&Table` borrow. -/
inductive SExpr where
  | scan (table : Identifier) (source_id : Nat) (yield_fn : SExpr)
  | map (source_id : Nat) (yield_in_fn : SExpr) (yield_out_fn : SExpr)
  | tempGroupBy (source_id : Nat) (yield_in_fn : SExpr)
      (group_by_values : List SExpr) (yield_out_fn : SExpr)
  | yieldExpr (fields : List SExpr)
  | columnField (source_id : Nat) (column_offset : Nat)
  | sif (chains : List (SExpr × SExpr)) (else_ : Option SExpr)
  | unaryOpE (op : UnaryOp) (expr : SExpr)
  | binaryOpE (op : BinaryOp) (lhs rhs : SExpr)
  | aggregateOpE (op : AggregateOp) (source_id : Nat) (value : SExpr)
  | countAll (source_id : Nat)
  | leftJoin (source_id : Nat) (yield_in_fn : SExpr) (predicate : SExpr)
      (yield_out_fn : SExpr) (right_rows_if_none : List Variant)
  | value (v : Variant)

/-- `ast_binaryop_to_sexpression_binaryop`. -/
def ast_binaryop_to_sexpression_binaryop : AstBinaryOp → BinaryOp
  | .equal => .equal
  | .notEqual => .notEqual
  | .lessThan => .lessThan
  | .lessThanOrEqual => .lessThanOrEqual
  | .greaterThan => .greaterThan
  | .greaterThanOrEqual => .greaterThanOrEqual
  | .and => .and
  | .or => .or
  | .add => .add
  | .subtract => .subtract
  | .multiply => .multiply
  | .divide => .divide
  | .bitAnd => .bitAnd
  | .bitOr => .bitOr
  | .concatenate => .concatenate

/-- `ast_unaryop_to_sexpression_unaryop`. -/
def ast_unaryop_to_sexpression_unaryop : AstUnaryOp → UnaryOp
  | .negate => .negate

/-! ### queryplan/source.rs and queryplan/columnnames.rs: compile-time scope -/

/-- `ColumnNames::get_column_offsets`: every offset where the name occurs. -/
def get_column_offsets (names : List Identifier) (name : Identifier) : List Nat :=
  go names 0
where
  go : List Identifier → Nat → List Nat
    | [], _ => []
    | n :: rest, i => if n = name then i :: go rest (i + 1) else go rest (i + 1)

/-- The scope entry `TableOrSubquery` as queryplan/mod.rs constructs it:
a source id plus the out-facing column names. -/
structure ScopeTable where
  source_id : Nat
  out_column_names : List Identifier
deriving Repr, DecidableEq

/-- `SourceScope`: a chain of frames, innermost first. -/
inductive SourceScope where
  | mk (parent : Option SourceScope) (tables : List ScopeTable)
       (table_aliases : List Identifier)

namespace SourceScope

def tables : SourceScope → List ScopeTable
  | .mk _ t _ => t

def table_aliases : SourceScope → List Identifier
  | .mk _ _ a => a

def parent : SourceScope → Option SourceScope
  | .mk p _ _ => p

end SourceScope

/-- The three-way lookup result that queryplan/mod.rs matches on.  The
definition of this type is missing from the snapshot (source.rs holds an
older `Option`-returning revision); it is declared here from its caller. -/
inductive GetColumnOffsetResult where
  | one (v : Nat × Nat)
  | notFound
  | ambiguous
deriving Repr, DecidableEq

/-- Candidate `(source_id, offset)` pairs of one frame for a bare column. -/
def frameCandidates (tables : List ScopeTable) (column_name : Identifier) :
    List (Nat × Nat) :=
  tables.flatMap (fun t =>
    (get_column_offsets t.out_column_names column_name).map (fun off => (t.source_id, off)))

/-- Modelled from the spec: `SourceScope::get_column_offset` in the shape
queryplan/mod.rs consumes is missing from src (source.rs carries an older
`Option`-returning version that collapses all frames).  Per the spec,
lookup "scans each frame inside-out, collects candidate (source_id, offset)
pairs, and fails with Ambiguous if >1 candidate in the nearest non-empty
ring; with None if zero overall". -/
def SourceScope.get_column_offset : SourceScope → Identifier → GetColumnOffsetResult
  | .mk parent tables _, name =>
    match frameCandidates tables name with
    | [] =>
      match parent with
      | some p => p.get_column_offset name
      | none => .notFound
    | [v] => .one v
    | _ :: _ :: _ => .ambiguous

/-- Candidates of one frame for an alias-qualified column. -/
def frameCandidatesQualified (tables : List ScopeTable) (aliases : List Identifier)
    (table_name column_name : Identifier) : List (Nat × Nat) :=
  frameCandidates
    ((aliases.zip tables).filterMap (fun (a, t) => if a = table_name then some t else none))
    column_name

/-- Modelled from the spec: the qualified lookup, restricting candidates by
alias equality before collecting (same inside-out scan). -/
def SourceScope.get_table_column_offset : SourceScope → Identifier → Identifier →
    GetColumnOffsetResult
  | .mk parent tables aliases, table_name, column_name =>
    match frameCandidatesQualified tables aliases table_name column_name with
    | [] =>
      match parent with
      | some p => p.get_table_column_offset table_name column_name
      | none => .notFound
    | [v] => .one v
    | _ :: _ :: _ => .ambiguous

end LlamaDb

namespace LlamaDb

/-! ### queryplan/mod.rs: the plan compiler -/

/-- `QueryPlanCompileError`, plus `compilerPanic` for panics reachable during
compilation (`unimplemented!()` on ORDER BY, the freshness `assert!`s on id
registration, the `unwrap` in `get_query_id_from_source_id`, and the NaN
panic inside `from_number_literal`). -/
inductive CompileErr where
  | tableDoesNotExist (n : Identifier)
  | columnDoesNotExist (n : Identifier)
  | ambiguousColumnName (n : Identifier)
  | badIdentifier (s : List Nat)
  | badStringLiteral (s : List Nat)
  | badNumberLiteral (s : List Nat)
  | unknownFunctionName (n : Identifier)
  | aggregateFunctionRequiresOneArgument
  | aggregateFunctionHasNoQueryToAggregate
  | aggregateAllMustBeCount (n : Identifier)
  | compilerPanic
deriving Repr, DecidableEq

/-- The shared mutable compiler state (the two counters and two id maps). -/
structure CompilerSharedState where
  source_id_to_query_id : List (Nat × Nat)
  query_to_aggregated_source_id : List (Nat × Nat)
  next_source_id : Nat
  next_query_id : Nat
deriving Repr, DecidableEq

abbrev CompM (α : Type) := StateT CompilerSharedState (Except CompileErr) α

/-- `HashMap::get` on the association-list model of the id maps. -/
def assocLookup (l : List (Nat × Nat)) (k : Nat) : Option Nat :=
  (l.find? (fun p => p.1 = k)).map (·.2)

/-- `GroupsInfo`. -/
structure GroupsInfo where
  innermost_nonaggregated_query : Option Nat
deriving Repr, DecidableEq

def GroupsInfo.fresh : GroupsInfo := ⟨none⟩

/-- `GroupsInfo::add_query_id`: the innermost query is the one with the
highest id. -/
def GroupsInfo.add_query_id (g : GroupsInfo) (query_id : Nat) : GroupsInfo :=
  match g.innermost_nonaggregated_query with
  | none => ⟨some query_id⟩
  | some q => if query_id > q then ⟨some query_id⟩ else ⟨some q⟩

/-- `QueryCompiler::new_source_id`. -/
def new_source_id (query_id : Nat) : CompM Nat := do
  let st ← get
  let old := st.next_source_id
  if (assocLookup st.source_id_to_query_id old).isSome then throw .compilerPanic
  set { st with
    source_id_to_query_id := st.source_id_to_query_id ++ [(old, query_id)]
    next_source_id := old + 1 }
  return old

/-- `QueryCompiler::new_query_id`. -/
def new_query_id : CompM Nat := do
  let st ← get
  set { st with next_query_id := st.next_query_id + 1 }
  return st.next_query_id

/-- `QueryCompiler::new_aggregated_source_id` (idempotent per query). -/
def new_aggregated_source_id (aggregated_query_id : Nat) : CompM Nat := do
  let st ← get
  match assocLookup st.query_to_aggregated_source_id aggregated_query_id with
  | some source_id => return source_id
  | none =>
    let old := st.next_source_id
    if (assocLookup st.source_id_to_query_id old).isSome then throw .compilerPanic
    if (assocLookup st.query_to_aggregated_source_id aggregated_query_id).isSome then
      throw .compilerPanic
    set { st with
      source_id_to_query_id := st.source_id_to_query_id ++ [(old, aggregated_query_id)]
      query_to_aggregated_source_id :=
        st.query_to_aggregated_source_id ++ [(aggregated_query_id, old)]
      next_source_id := old + 1 }
    return old

/-- `QueryCompiler::get_query_id_from_source_id` (`unwrap` on a miss). -/
def get_query_id_from_source_id (source_id : Nat) : CompM Nat := do
  let st ← get
  match assocLookup st.source_id_to_query_id source_id with
  | some q => return q
  | none => throw .compilerPanic

/-- `fn new_identifier` in queryplan/mod.rs. -/
def new_identifier (value : List Nat) : CompM Identifier :=
  match normalize value with
  | some i => pure i
  | none => throw (.badIdentifier value)

/-- `QueryPlan`. -/
structure QueryPlan where
  expr : SExpr
  out_column_names : List Identifier

/-- `FromWhereTableOrSubquery`. -/
inductive FWTos where
  | table (source_id : Nat) (tableName : Identifier)
  | subqueryT (source_id : Nat) (expr : SExpr)

/-- `FromWhereJoin`. -/
inductive FWJoin where
  | inner (table : FWTos) (onE : SExpr)
  | left (source_id : Nat) (table : SExpr) (onE : SExpr)
      (right_rows_if_none : List Variant)

/-- `FromWhere`. -/
inductive FromWhere where
  | cross (tables : List FWTos) (where_expr : Option SExpr)
  | join (outer_table : FWTos) (joins : List FWJoin) (where_expr : Option SExpr)

/-- `FromWhereTableOrSubquery::into_sexpr`. -/
def FWTos.into_sexpr : FWTos → SExpr → SExpr
  | .subqueryT source_id expr, nested => .map source_id expr nested
  | .table source_id name, nested => .scan name source_id nested

/-- `FromWhereTableOrSubquery::source_id`. -/
def FWTos.sourceId : FWTos → Nat
  | .table sid _ => sid
  | .subqueryT sid _ => sid

/-- `FromWhereTableOrSubquery::yield_all_columns`. -/
def FWTos.yield_all_columns (t : FWTos) (column_count : Nat) : SExpr :=
  t.into_sexpr (.yieldExpr ((List.range column_count).map (fun off =>
    .columnField t.sourceId off)))

/-- The `core_expr` closure inside `FromWhere::evaluate`. -/
def coreExpr (where_expr : Option SExpr) (inner : SExpr) : SExpr :=
  match where_expr with
  | some w => .sif [(w, inner)] none
  | none => inner

/-- `FromWhere::evaluate`: fold the FROM bindings around the inner plan. -/
def FromWhere.evaluate : FromWhere → SExpr → SExpr
  | .cross tables where_expr, inner =>
    tables.reverse.foldl (fun nested x => x.into_sexpr nested) (coreExpr where_expr inner)
  | .join outer_table joins where_expr, inner =>
    let s := joins.reverse.foldl (fun nested j =>
      match j with
      | .inner table onE => table.into_sexpr (.sif [(onE, nested)] none)
      | .left source_id table onE right_rows_if_none =>
        .leftJoin source_id table onE nested right_rows_if_none)
      (coreExpr where_expr inner)
    outer_table.into_sexpr s

/-- `struct Mapping` in queryplan/mod.rs. -/
structure Mapping where
  source_id : Nat
  column_offset : Nat
deriving Repr, DecidableEq

mutual

/-- `remap_columns_in_sexpression` composed with
`iter_mut_expressions_in_expression`: rewrite every `ColumnField` the
iterator reaches.  The iterator catch-all arm means `UnaryOp`, `CountAll`,
`LeftJoin` and `Value` children are NOT visited — preserved faithfully. -/
def remap_columns_in_sexpression (mapping : List (Nat × Mapping)) : SExpr → SExpr
  | .columnField source_id column_offset =>
    match (mapping.find? (fun p => p.1 = source_id)).map (·.2) with
    | some m => .columnField m.source_id (column_offset + m.column_offset)
    | none => .columnField source_id column_offset
  | .scan t sid yf => .scan t sid (remap_columns_in_sexpression mapping yf)
  | .map sid a b =>
    .map sid (remap_columns_in_sexpression mapping a) (remap_columns_in_sexpression mapping b)
  | .tempGroupBy sid a gvs b =>
    .tempGroupBy sid (remap_columns_in_sexpression mapping a)
      (remapList mapping gvs) (remap_columns_in_sexpression mapping b)
  | .yieldExpr fs => .yieldExpr (remapList mapping fs)
  | .sif chains else_ =>
    .sif (remapChains mapping chains)
      (match else_ with
       | some e => some (remap_columns_in_sexpression mapping e)
       | none => none)
  | .binaryOpE op l r =>
    .binaryOpE op (remap_columns_in_sexpression mapping l) (remap_columns_in_sexpression mapping r)
  | .aggregateOpE op sid v => .aggregateOpE op sid (remap_columns_in_sexpression mapping v)
  | .unaryOpE op e => .unaryOpE op e        -- `_ => ()`: children not visited
  | .countAll sid => .countAll sid
  | .leftJoin a b c d e => .leftJoin a b c d e
  | .value v => .value v

def remapList (mapping : List (Nat × Mapping)) : List SExpr → List SExpr
  | [] => []
  | e :: rest => remap_columns_in_sexpression mapping e :: remapList mapping rest

def remapChains (mapping : List (Nat × Mapping)) :
    List (SExpr × SExpr) → List (SExpr × SExpr)
  | [] => []
  | (p, y) :: rest =>
    (remap_columns_in_sexpression mapping p, remap_columns_in_sexpression mapping y)
      :: remapChains mapping rest

end

/-- The cumulative-offset source map built inside `compile` for the grouped
rewrite: scope tables in order, offsets accumulating. -/
def buildMapping (source_id : Nat) : List ScopeTable → Nat → List (Nat × Mapping)
  | [], _ => []
  | t :: rest, c =>
    (t.source_id, ⟨source_id, c⟩) :: buildMapping source_id rest (c + t.out_column_names.length)

/-- The `yield_every_column` fields inside `compile`: every column of every
table of the current scope frame, in order. -/
def everyColumnFields (tables : List ScopeTable) : List SExpr :=
  tables.flatMap (fun t =>
    (List.range t.out_column_names.length).map (fun off => SExpr.columnField t.source_id off))

/-- The `SelectColumn::AllColumns` expansion inside `select`. -/
def allColumnsEntries (tables : List ScopeTable) : List (Identifier × SExpr) :=
  tables.flatMap (fun t =>
    go t.source_id t.out_column_names 0)
where
  go (sid : Nat) : List Identifier → Nat → List (Identifier × SExpr)
    | [], _ => []
    | n :: rest, i => (n, SExpr.columnField sid i) :: go sid rest (i + 1)

/-- `TempDb::find_table_by_name` (schema side). -/
def findTableByName (tables : List Table) (name : Identifier) : Option Table :=
  tables.find? (fun t => t.name = name)

end LlamaDb

namespace LlamaDb

/-- Append one table binding to a scope frame (the `new_scope.tables.push` /
`table_aliases.push` pair in `from_where_join`). -/
def scopePush (s : SourceScope) (t : ScopeTable) (a : Identifier) : SourceScope :=
  match s with
  | .mk p ts als => .mk p (ts ++ [t]) (als ++ [a])

def identCount : Identifier := [99, 111, 117, 110, 116]
def identAvg : Identifier := [97, 118, 103]
def identSum : Identifier := [115, 117, 109]
def identMin : Identifier := [109, 105, 110]
def identMax : Identifier := [109, 97, 120]

/-- Lexicographic pair descent from a non-strict first component. -/
theorem natPairLex {a b c d : Nat} (h1 : a ≤ c) (h2 : a = c → b < d) :
    Prod.Lex (· < ·) (· < ·) (a, b) (c, d) := by
  rcases Nat.lt_or_ge a c with h | h
  · exact Prod.Lex.left _ _ h
  · have he : a = c := Nat.le_antisymm h1 h
    subst he
    exact Prod.Lex.right _ (h2 rfl)

/-- The non-recursive tail of `QueryCompiler::compile`: assemble the plan
(grouped rewrite if an aggregated source was registered for this query). -/
def compileFinish (query_id : Nat) (new_scope : SourceScope) (fw : FromWhere)
    (group_by_values : List SExpr) (having_predicate : Option SExpr)
    (column_names : List Identifier) (select_exprs : List SExpr) :
    CompM QueryPlan := do
  let st ← get
  match assocLookup st.query_to_aggregated_source_id query_id with
  | some source_id =>
    let yield_every_column := SExpr.yieldExpr (everyColumnFields new_scope.tables)
    let yield_in_fn := fw.evaluate yield_every_column
    let mapping := buildMapping source_id new_scope.tables 0
    let yield_out_fn := SExpr.yieldExpr select_exprs
    let group_by_values := remapList mapping group_by_values
    let yield_out_fn :=
      match having_predicate with
      | some hp => SExpr.sif [(hp, yield_out_fn)] none
      | none => yield_out_fn
    let yield_out_fn := remap_columns_in_sexpression mapping yield_out_fn
    pure { expr := .tempGroupBy source_id yield_in_fn group_by_values yield_out_fn,
           out_column_names := column_names }
  | none =>
    pure { expr := fw.evaluate (.yieldExpr select_exprs),
           out_column_names := column_names }

mutual

/-- `QueryCompiler::compile` (queryplan/mod.rs): lower one SELECT.  The
`query_id` parameter is the compiler instance's field; `gi` is the
`&mut GroupsInfo` being threaded. -/
def compile (db : List Table) (query_id : Nat) (stmt : SelectStatement)
    (outer_scope : SourceScope) (gi : GroupsInfo) : CompM (QueryPlan × GroupsInfo) :=
  match stmt with
  | .mk result_columns from_ where_expr group_by having order_by =>
    if ¬ order_by.isEmpty then throw .compilerPanic    -- unimplemented!()
    else do
      let ((new_scope, fw), gi) ← from_where db query_id from_ where_expr outer_scope gi
      let ((group_by_values, having_predicate), gi) ←
        if ¬ group_by.isEmpty then
          groupByHaving db query_id group_by having new_scope gi
        else pure ((([] : List SExpr), (none : Option SExpr)), gi)
      let ((column_names, select_exprs), gi) ←
        selectCols db query_id result_columns new_scope 0 gi
      let plan ← compileFinish query_id new_scope fw group_by_values
        having_predicate column_names select_exprs
      pure (plan, gi)
termination_by (sizeOf stmt, 0)
decreasing_by all_goals (simp_wf; apply natPairLex <;> omega)

/-- The GROUP BY / HAVING lowering inside `compile` (taken when the
statement has a non-empty `group_by`). -/
def groupByHaving (db : List Table) (query_id : Nat)
    (group_by : List AstExpression) (having : Option AstExpression)
    (new_scope : SourceScope) (gi : GroupsInfo) :
    CompM ((List SExpr × Option SExpr) × GroupsInfo) := do
  let _ ← new_aggregated_source_id query_id
  let (gvs, gi) ← exprListGo db query_id group_by new_scope gi
  match having with
  | some h => do
    let (hp, gi) ← ast_expression_to_sexpression db query_id h new_scope gi
    pure ((gvs, some hp), gi)
  | none => pure ((gvs, (none : Option SExpr)), gi)
termination_by (sizeOf group_by + sizeOf having, 1)
decreasing_by all_goals (simp_wf; apply natPairLex <;> omega)

/-- `QueryCompiler::from_where`. -/
def from_where (db : List Table) (query_id : Nat) (f : AstFrom)
    (where_expr : Option AstExpression) (scope : SourceScope) (gi : GroupsInfo) :
    CompM ((SourceScope × FromWhere) × GroupsInfo) :=
  match f with
  | .cross v => from_where_cross db query_id v where_expr scope gi
  | .join table joins => from_where_join db query_id table joins where_expr scope gi
termination_by (sizeOf f + sizeOf where_expr, 3)
decreasing_by all_goals (simp_wf; apply natPairLex <;> omega)

/-- `QueryCompiler::ast_table_or_subquery_to`. -/
def ast_table_or_subquery_to (db : List Table) (query_id : Nat)
    (ts : AstTableOrSubquery) (scope : SourceScope) (gi : GroupsInfo) :
    CompM (((ScopeTable × FWTos) × Identifier) × GroupsInfo) :=
  match ts with
  | .subquery sub aliasName => do
    let sub_query_id ← new_query_id
    let (plan, gi) ← compile db sub_query_id sub scope gi
    let alias_identifier ← new_identifier aliasName
    let source_id ← new_source_id query_id
    pure (((⟨source_id, plan.out_column_names⟩, .subqueryT source_id plan.expr),
      alias_identifier), gi)
  | .table t aliasName => do
    let table_name_identifier ← new_identifier t.table_name
    match findTableByName db table_name_identifier with
    | none => throw (.tableDoesNotExist table_name_identifier)
    | some table => do
      let alias_identifier ←
        match aliasName with
        | some a => new_identifier a
        | none => pure table_name_identifier
      let source_id ← new_source_id query_id
      pure (((⟨source_id, table.columns.map (·.name)⟩, .table source_id table.name),
        alias_identifier), gi)
termination_by (sizeOf ts, 0)
decreasing_by all_goals (simp_wf; apply natPairLex <;> omega)

/-- The `map`/`collect` over the cross tables inside `from_where_cross`. -/
def crossGo (db : List Table) (query_id : Nat) (tables : List AstTableOrSubquery)
    (scope : SourceScope) (gi : GroupsInfo) :
    CompM (List ((ScopeTable × FWTos) × Identifier) × GroupsInfo) :=
  match tables with
  | [] => pure ([], gi)
  | t :: rest => do
    let (entry, gi) ← ast_table_or_subquery_to db query_id t scope gi
    let (entries, gi) ← crossGo db query_id rest scope gi
    pure (entry :: entries, gi)
termination_by (sizeOf tables, 1)
decreasing_by all_goals (simp_wf; apply natPairLex <;> omega)

/-- `QueryCompiler::from_where_cross`. -/
def from_where_cross (db : List Table) (query_id : Nat)
    (ast_cross_tables : List AstTableOrSubquery) (where_expr : Option AstExpression)
    (scope : SourceScope) (gi : GroupsInfo) :
    CompM ((SourceScope × FromWhere) × GroupsInfo) := do
  let (a, gi) ← crossGo db query_id ast_cross_tables scope gi
  let source_tables := a.map (fun e => e.1.1)
  let fromwhere_tables := a.map (fun e => e.1.2)
  let table_aliases := a.map (fun e => e.2)
  let new_scope : SourceScope := .mk (some scope) source_tables table_aliases
  match where_expr with
  | some w => do
    let (ws, gi) ← ast_expression_to_sexpression db query_id w new_scope gi
    pure ((new_scope, .cross fromwhere_tables (some ws)), gi)
  | none => pure ((new_scope, .cross fromwhere_tables none), gi)
termination_by (sizeOf ast_cross_tables + sizeOf where_expr, 2)
decreasing_by all_goals (simp_wf; apply natPairLex <;> omega)

/-- The join loop inside `from_where_join`: each join's table is resolved in
the OUTER scope, its ON expression under the scope grown so far. -/
def joinsGo (db : List Table) (query_id : Nat) (joins : List AstJoin)
    (scope new_scope : SourceScope) (gi : GroupsInfo) :
    CompM ((List FWJoin × SourceScope) × GroupsInfo) :=
  match joins with
  | [] => pure (([], new_scope), gi)
  | .mk operator table onE :: rest => do
    let (((st, fwt), al), gi2) ← ast_table_or_subquery_to db query_id table scope gi
    match operator with
    | .inner => do
      let new_scope := scopePush new_scope st al
      let (onS, gi3) ← ast_expression_to_sexpression db query_id onE new_scope gi2
      let ((js, final_scope), gi4) ← joinsGo db query_id rest scope new_scope gi3
      pure (((.inner fwt onS) :: js, final_scope), gi4)
    | .left => do
      let source_id ← new_source_id query_id
      let left_join_source_table : ScopeTable := ⟨source_id, st.out_column_names⟩
      let column_count := left_join_source_table.out_column_names.length
      let new_scope := scopePush new_scope left_join_source_table al
      let (onS, gi3) ← ast_expression_to_sexpression db query_id onE new_scope gi2
      let ((js, final_scope), gi4) ← joinsGo db query_id rest scope new_scope gi3
      pure (((.left source_id (fwt.yield_all_columns column_count) onS
        (List.replicate column_count Variant.null)) :: js, final_scope), gi4)
termination_by (sizeOf joins, 1)
decreasing_by all_goals (simp_wf; apply natPairLex <;> omega)

/-- `QueryCompiler::from_where_join`. -/
def from_where_join (db : List Table) (query_id : Nat) (table : AstTableOrSubquery)
    (joins : List AstJoin) (where_expr : Option AstExpression)
    (scope : SourceScope) (gi : GroupsInfo) :
    CompM ((SourceScope × FromWhere) × GroupsInfo) := do
  let (((source_table, fromwhere_table), aliasName), gi) ←
    ast_table_or_subquery_to db query_id table scope gi
  let new_scope : SourceScope := .mk (some scope) [source_table] [aliasName]
  let ((j, new_scope), gi) ← joinsGo db query_id joins scope new_scope gi
  match where_expr with
  | some w => do
    let (ws, gi) ← ast_expression_to_sexpression db query_id w new_scope gi
    pure ((new_scope, .join fromwhere_table j (some ws)), gi)
  | none => pure ((new_scope, .join fromwhere_table j none), gi)
termination_by (sizeOf table + sizeOf joins + sizeOf where_expr, 2)
decreasing_by all_goals (simp_wf; apply natPairLex <;> omega)

/-- The list map over GROUP BY expressions (and any expression list). -/
def exprListGo (db : List Table) (query_id : Nat) (es : List AstExpression)
    (scope : SourceScope) (gi : GroupsInfo) : CompM (List SExpr × GroupsInfo) :=
  match es with
  | [] => pure ([], gi)
  | e :: rest => do
    let (s, gi) ← ast_expression_to_sexpression db query_id e scope gi
    let (ss, gi) ← exprListGo db query_id rest scope gi
    pure (s :: ss, gi)
termination_by (sizeOf es, 0)
decreasing_by all_goals (simp_wf; apply natPairLex <;> omega)

/-- `QueryCompiler::select`: lower the result columns, producing the output
column names and expressions.  `counter` is the `arbitrary_column_count`. -/
def selectCols (db : List Table) (query_id : Nat) (cols : List SelectColumn)
    (scope : SourceScope) (counter : Nat) (gi : GroupsInfo) :
    CompM ((List Identifier × List SExpr) × GroupsInfo) :=
  match cols with
  | [] => pure (([], []), gi)
  | .allColumns :: rest => do
    let gi := gi.add_query_id query_id
    let entries := allColumnsEntries scope.tables
    let ((ns, es), gi) ← selectCols db query_id rest scope counter gi
    pure ((entries.map (·.1) ++ ns, entries.map (·.2) ++ es), gi)
  | .expr e aliasName :: rest => do
    let (column_name, counter) ←
      match aliasName with
      | some a => do
        let i ← new_identifier a
        pure (i, counter)
      | none =>
        match e with
        | .ident n => do
          let i ← new_identifier n
          pure (i, counter)
        | _ =>
          -- `arbitrary_column_name`: "_<counter>", `Identifier::new(..).unwrap()`
          match normalize (95 :: natDecimalBytes counter) with
          | some i => pure (i, counter + 1)
          | none => throw .compilerPanic
    let (se, gi) ← ast_expression_to_sexpression db query_id e scope gi
    let ((ns, es), gi) ← selectCols db query_id rest scope counter gi
    pure ((column_name :: ns, se :: es), gi)
termination_by (sizeOf cols, 0)
decreasing_by all_goals (simp_wf; apply natPairLex <;> omega)

/-- `QueryCompiler::ast_expression_to_sexpression`. -/
def ast_expression_to_sexpression (db : List Table) (query_id : Nat)
    (ast : AstExpression) (scope : SourceScope) (gi : GroupsInfo) :
    CompM (SExpr × GroupsInfo) :=
  match ast with
  | .ident s => do
    let column_identifier ← new_identifier s
    match scope.get_column_offset column_identifier with
    | .one (source_id, column_offset) => do
      let q ← get_query_id_from_source_id source_id
      pure (.columnField source_id column_offset, gi.add_query_id q)
    | .notFound => throw (.columnDoesNotExist column_identifier)
    | .ambiguous => throw (.ambiguousColumnName column_identifier)
  | .identMember s1 s2 => do
    let table_identifier ← new_identifier s1
    let column_identifier ← new_identifier s2
    match scope.get_table_column_offset table_identifier column_identifier with
    | .one (source_id, column_offset) => do
      let q ← get_query_id_from_source_id source_id
      pure (.columnField source_id column_offset, gi.add_query_id q)
    | .notFound => throw (.columnDoesNotExist column_identifier)
    | .ambiguous => throw (.ambiguousColumnName column_identifier)
  | .unaryOp op expr => do
    let (e, gi) ← ast_expression_to_sexpression db query_id expr scope gi
    pure (.unaryOpE (ast_unaryop_to_sexpression_unaryop op) e, gi)
  | .binaryOp op lhs rhs => do
    let (l, gi) ← ast_expression_to_sexpression db query_id lhs scope gi
    let (r, gi) ← ast_expression_to_sexpression db query_id rhs scope gi
    pure (.binaryOpE (ast_binaryop_to_sexpression_binaryop op) l r, gi)
  | .stringLiteral s =>
    -- `Variant::from_string_literal` always succeeds; the BadStringLiteral
    -- branch is dead code for this ColumnValue type.
    pure (.value (Variant.from_string_literal s), gi)
  | .number s =>
    match Variant.from_number_literal s with
    | .ok (some v) => pure (.value v, gi)
    | .ok none => throw (.badNumberLiteral s)
    | .crash => throw .compilerPanic
  | .nullLiteral => pure (.value Variant.nullValue, gi)
  | .subquery sub => do
    let source_id ← new_source_id query_id
    let sub_query_id ← new_query_id
    let (plan, gi) ← compile db sub_query_id sub scope gi
    pure (.map source_id plan.expr (.columnField source_id 0), gi)
  | .functionCall name arguments => do
    let ident ← new_identifier name
    let op? : Option AggregateOp :=
      if ident = identCount then some .count
      else if ident = identAvg then some .avg
      else if ident = identSum then some .sum
      else if ident = identMin then some .min
      else if ident = identMax then some .max
      else none
    match op? with
    | none => throw (.unknownFunctionName ident)
    | some op =>
      match arguments with
      | [arg] => do
        -- a fresh GroupsInfo for the argument; the outer one is not updated
        let (value, g) ←
          ast_expression_to_sexpression db query_id arg scope GroupsInfo.fresh
        match g.innermost_nonaggregated_query with
        | some aggregated_query =>
          if aggregated_query ≤ query_id then do
            let source_id ← new_aggregated_source_id aggregated_query
            pure (.aggregateOpE op source_id value, gi)
          else throw .aggregateFunctionHasNoQueryToAggregate
        | none => throw .aggregateFunctionHasNoQueryToAggregate
      | _ => throw .aggregateFunctionRequiresOneArgument
  | .functionCallAggregateAll name => do
    let ident ← new_identifier name
    if ident = identCount then do
      let source_id ← new_aggregated_source_id query_id
      pure (.countAll source_id, gi)
    else throw (.aggregateAllMustBeCount ident)
termination_by (sizeOf ast, 0)
decreasing_by all_goals (simp_wf; apply natPairLex <;> omega)

end

/-- `QueryPlan::compile_select`: fresh shared state, query id 0, empty
outer scope. -/
def compile_select (db : List Table) (stmt : SelectStatement) :
    Except CompileErr QueryPlan :=
  ((compile db 0 stmt (.mk none [] []) GroupsInfo.fresh).run
    ⟨[], [], 0, 1⟩).map (fun r => r.1.1)

/-- `compile_ast_expression`. -/
def compile_ast_expression (db : List Table) (expr : AstExpression) :
    Except CompileErr SExpr :=
  ((ast_expression_to_sexpression db 0 expr (.mk none [] []) GroupsInfo.fresh).run
    ⟨[], [], 0, 1⟩).map (fun r => r.1.1)

end LlamaDb

namespace LlamaDb

/-! ### queryplan/execute/mod.rs: the plan executor

The executor walks the plan collecting yielded rows (the row sink of the
claims only ever collects).  Rust panics surface as `ExecErr.crash`,
`Err(())` as `ExecErr.err`.

`GroupBuckets` (groupbuckets.rs) stores buckets in a `HashMap`, whose
iteration order is NOT the insertion order (it depends on the hasher).
The model keeps buckets in first-insertion order and the executor takes a
reordering oracle `ord`, applied exactly where the Rust code iterates the
map; theorems quantify over the permutations this oracle may apply. -/

inductive ExecErr where
  | err      -- Err(())
  | crash    -- a Rust panic
deriving Repr, DecidableEq

abbrev ExecM (α : Type) := Except ExecErr α

def liftP {α : Type} : PRes α → ExecM α
  | .ok a => .ok a
  | .crash => .error .crash

/-- The derived `PartialEq` of `Variant`: structural, except that floats
compare by IEEE value (`F64NoNaN`'s `PartialEq` derefs to `f64`). -/
def variantEqRust : Variant → Variant → Bool
  | .null, .null => true
  | .bytes a, .bytes b => a = b
  | .stringLiteral a, .stringLiteral b => a = b
  | .signedInteger a, .signedInteger b => a = b
  | .unsignedInteger a, .unsignedInteger b => a = b
  | .float a, .float b => f64Eq a b
  | _, _ => false

def variantListEqRust : List Variant → List Variant → Bool
  | [], [] => true
  | a :: as_, b :: bs => variantEqRust a b && variantListEqRust as_ bs
  | _, _ => false

/-- One group bucket: its key and its rows (in input order). -/
abbrev GroupBucket := List Variant × List (List Variant)

/-- `GroupBuckets::insert`: extend the key's bucket, or start a new one. -/
def groupBucketsInsert (key row : List Variant) :
    List GroupBucket → List GroupBucket
  | [] => [(key, [row])]
  | (k, rows) :: rest =>
    if variantListEqRust k key then (k, rows ++ [row]) :: rest
    else (k, rows) :: groupBucketsInsert key row rest

/-- `SourceType` / the `Source` chain: the runtime environment. -/
inductive Binding where
  | row (r : List Variant)
  | group (rows : List (List Variant))
deriving Repr, DecidableEq

abbrev Env := List (Nat × Binding)

/-- `Source::find_row_from_source_id`: stops at the first id match. -/
def find_row_from_source_id : Env → Nat → Option (List Variant)
  | [], _ => none
  | (sid, b) :: parent, source_id =>
    if sid = source_id then
      match b with
      | .row r => some r
      | _ => none
    else find_row_from_source_id parent source_id

/-- `Source::find_group_from_source_id`. -/
def find_group_from_source_id : Env → Nat → Option (List (List Variant))
  | [], _ => none
  | (sid, b) :: parent, source_id =>
    if sid = source_id then
      match b with
      | .group rows => some rows
      | _ => none
    else find_group_from_source_id parent source_id

mutual

/-- `ExecuteQueryPlan::execute`: run a row-producing node, returning the
rows it yields (in order).  The `If` arm: the snapshot's executor matches
the older single-predicate `If`; the compiler only emits a single chain and
no else, on which the chain semantics below coincides with that arm. -/
def execute (db : List Table) (ord : List GroupBucket → List GroupBucket)
    (expr : SExpr) (env : Env) : ExecM (List (List Variant)) :=
  match expr with
  | .scan tableName source_id yield_fn =>
    match findTableByName db tableName with
    | none => .error .crash    -- a dangling `&Table` borrow cannot arise
    | some t => do
      let rows ← liftP t.scan
      execRows db ord source_id yield_fn rows env
  | .map source_id yield_in_fn yield_out_fn => do
    let rows ← execute db ord yield_in_fn env
    execRows db ord source_id yield_out_fn rows env
  | .tempGroupBy source_id yield_in_fn group_by_values yield_out_fn => do
    let rows ← execute db ord yield_in_fn env
    let buckets ← buildBuckets db ord source_id group_by_values rows env []
    execGroups db ord source_id yield_out_fn (ord buckets) env
  | .yieldExpr fields => do
    let columns ← resolveList db ord fields env
    pure [columns]
  | .sif chains else_ => execChains db ord chains else_ env
  | .leftJoin _ _ _ _ _ => .error .crash   -- no executor arm in the snapshot
  | .columnField _ _ => .error .err        -- "cannot contain yieldable rows"
  | .binaryOpE _ _ _ => .error .err
  | .aggregateOpE _ _ _ => .error .err
  | .unaryOpE _ _ => .error .err
  | .countAll _ => .error .err
  | .value _ => .error .err
termination_by (sizeOf expr, 0)
decreasing_by all_goals (simp_wf; apply natPairLex <;> omega)

/-- The per-row loop of `Scan` / `Map`: bind each row and run the body. -/
def execRows (db : List Table) (ord : List GroupBucket → List GroupBucket)
    (source_id : Nat) (yf : SExpr) (rows : List (List Variant)) (env : Env) :
    ExecM (List (List Variant)) :=
  match rows with
  | [] => pure []
  | r :: rest => do
    let a ← execute db ord yf ((source_id, .row r) :: env)
    let b ← execRows db ord source_id yf rest env
    pure (a ++ b)
termination_by (sizeOf yf, 1 + rows.length)
decreasing_by all_goals (simp_wf; apply natPairLex <;> omega)

/-- The bucket-filling loop of `TempGroupBy`: resolve the key tuple under
the row binding and insert. -/
def buildBuckets (db : List Table) (ord : List GroupBucket → List GroupBucket)
    (source_id : Nat) (group_by_values : List SExpr) (rows : List (List Variant))
    (env : Env) (acc : List GroupBucket) : ExecM (List GroupBucket) :=
  match rows with
  | [] => pure acc
  | r :: rest => do
    let key ← resolveList db ord group_by_values ((source_id, .row r) :: env)
    buildBuckets db ord source_id group_by_values rest env (groupBucketsInsert key r acc)
termination_by (sizeOf group_by_values, 1 + rows.length)
decreasing_by all_goals (simp_wf; apply natPairLex <;> omega)

/-- The group-emitting loop of `TempGroupBy`. -/
def execGroups (db : List Table) (ord : List GroupBucket → List GroupBucket)
    (source_id : Nat) (yield_out_fn : SExpr) (buckets : List GroupBucket)
    (env : Env) : ExecM (List (List Variant)) :=
  match buckets with
  | [] => pure []
  | (_, rows) :: rest => do
    let a ← execute db ord yield_out_fn ((source_id, .group rows) :: env)
    let b ← execGroups db ord source_id yield_out_fn rest env
    pure (a ++ b)
termination_by (sizeOf yield_out_fn, 1 + buckets.length)
decreasing_by all_goals (simp_wf; apply natPairLex <;> omega)

/-- The `If` chains: first predicate that tests true wins, else the else
branch, else no rows. -/
def execChains (db : List Table) (ord : List GroupBucket → List GroupBucket)
    (chains : List (SExpr × SExpr)) (else_ : Option SExpr) (env : Env) :
    ExecM (List (List Variant)) :=
  match chains with
  | [] =>
    match else_ with
    | some e => execute db ord e env
    | none => pure []
  | (p, y) :: rest => do
    let pred ← resolveValue db ord p env
    if pred.tests_true then execute db ord y env
    else execChains db ord rest else_ env
termination_by (sizeOf chains + sizeOf else_, 0)
decreasing_by all_goals (simp_wf; apply natPairLex <;> omega)

/-- `ExecuteQueryPlan::resolve_value`.  The comparison operators and the
`AggregateOp` arm are `unimplemented!()` in the snapshot's executor;
they are modelled from the spec (§4.1 Kleene comparisons; §4.4 aggregate
folding).  The arithmetic/bit operators stay as the panics they are. -/
def resolveValue (db : List Table) (ord : List GroupBucket → List GroupBucket)
    (expr : SExpr) (env : Env) : ExecM Variant :=
  match expr with
  | .value v => pure v
  | .columnField source_id column_offset =>
    -- Modelled from the spec in part: the snapshot's arm consults only row
    -- bindings, which cannot resolve the group-key columns its own compiler
    -- emits after the grouping rewrite (the spec's GROUP BY scenario needs
    -- them).  `Group::get_any_row` (databasestorage.rs) exists precisely
    -- for that fallback, modelled here: a missing row binding falls back to
    -- any row of a group binding of the same source.
    (match find_row_from_source_id env source_id with
     | some row =>
       if column_offset < row.length then pure (row.getD column_offset .null)
       else .error .crash                    -- row[offset] out of bounds
     | none =>
       match find_group_from_source_id env source_id with
       | some rows =>
         match rows.head? with
         | some row =>
           if column_offset < row.length then pure (row.getD column_offset .null)
           else .error .crash
         | none => .error .err               -- get_any_row on an empty group
       | none => .error .err)
  | .binaryOpE op lhs rhs => do
    let l ← resolveValue db ord lhs env
    let r ← resolveValue db ord rhs env
    match op with
    | .equal => liftP (l.equals r)
    | .notEqual => liftP (l.not_equals r)
    | .and => liftP (l.andOp r)
    | .or => liftP (l.orOp r)
    | .concatenate => liftP (l.concat r)
    -- Modelled from the spec: `unimplemented!()` in the snapshot; §4.1.
    | .lessThan => liftP (l.less_than r)
    | .lessThanOrEqual => liftP (l.less_than_or_equal r)
    | .greaterThan => liftP (l.greater_than r)
    | .greaterThanOrEqual => liftP (l.greater_than_or_equal r)
    | .add => .error .crash                  -- unimplemented!()
    | .subtract => .error .crash
    | .multiply => .error .crash
    | .divide => .error .crash
    | .bitAnd => .error .crash
    | .bitOr => .error .crash
  | .aggregateOpE op source_id valueE =>
    -- Modelled from the spec: `unimplemented!()` in the snapshot; §4.4.
    (match find_group_from_source_id env source_id with
     | none => .error .err
     | some rows => do
       let st ← aggFeed db ord source_id valueE rows env (get_aggregate_function op)
       liftP st.finish)
  | .map source_id yield_in_fn yield_out_fn => do
    let rows ← execute db ord yield_in_fn env
    let z := rows.foldl (fun (acc : Option (List Variant) × Nat) row =>
      (if acc.2 = 0 then some row else acc.1, acc.2 + 1)) (none, 0)
    if z.2 = 1 then
      match z.1 with
      | some row => resolveValue db ord yield_out_fn ((source_id, .row row) :: env)
      | none => .error .crash                -- r.unwrap(): unreachable at count 1
    else .error .err
  | .scan _ _ _ => .error .err               -- the catch-all Err(()) arm
  | .tempGroupBy _ _ _ _ => .error .err
  | .yieldExpr _ => .error .err
  | .sif _ _ => .error .err
  | .unaryOpE _ _ => .error .err
  | .countAll _ => .error .err
  | .leftJoin _ _ _ _ _ => .error .err
termination_by (sizeOf expr, 0)
decreasing_by all_goals (simp_wf; apply natPairLex <;> omega)

/-- Resolve a list of scalar expressions (the `Yield` fields and the
group-by key tuple). -/
def resolveList (db : List Table) (ord : List GroupBucket → List GroupBucket)
    (es : List SExpr) (env : Env) : ExecM (List Variant) :=
  match es with
  | [] => pure []
  | e :: rest => do
    let v ← resolveValue db ord e env
    let vs ← resolveList db ord rest env
    pure (v :: vs)
termination_by (sizeOf es, 0)
decreasing_by all_goals (simp_wf; apply natPairLex <;> omega)

/-- Fold an aggregator over the rows of a group, re-resolving the value
expression with the grouped source bound to each row. -/
def aggFeed (db : List Table) (ord : List GroupBucket → List GroupBucket)
    (source_id : Nat) (valueE : SExpr) (rows : List (List Variant)) (env : Env)
    (st : AggState) : ExecM AggState :=
  match rows with
  | [] => pure st
  | row :: rest => do
    let v ← resolveValue db ord valueE ((source_id, .row row) :: env)
    let st ← liftP (st.feed v)
    aggFeed db ord source_id valueE rest env st
termination_by (sizeOf valueE, 1 + rows.length)
decreasing_by all_goals (simp_wf; apply natPairLex <;> omega)

end

/-- `ExecuteQueryPlan::execute_query_plan` with a collecting row sink. -/
def execute_query_plan (db : List Table) (ord : List GroupBucket → List GroupBucket)
    (expr : SExpr) : ExecM (List (List Variant)) :=
  execute db ord expr []

/-- Modelled from the spec: `ExecuteQueryPlan::execute_expression` is called
by `insert_into` but absent from the snapshot executor; §4.4 specifies it
"returns a single Value for compile-time use", i.e. scalar resolution under
the empty environment. -/
def execute_expression (db : List Table) (expr : SExpr) : ExecM Variant :=
  resolveValue db (fun b => b) expr []

end LlamaDb

namespace LlamaDb

/-! ### tempdb/mod.rs: statement execution

Statement-level errors are Rust `String`s whose text the claims never
inspect; the model collapses them to `Except Unit`.  Panics stay `PRes`. -/

inductive ConstraintType where
  | primaryKey
  | unique
  | nullable
  | foreignKey
deriving Repr, DecidableEq

/-- `ast::CreateTableColumn` (the constraint list keeps only the
constraint kinds, which is all `create_table` reads). -/
structure CreateTableColumn where
  column_name : List Nat
  type_name : List Nat
  type_array_size : Option (Option (List Nat))
  constraints : List ConstraintType
deriving Repr, DecidableEq

structure CreateTableStatement where
  table : AstTable
  columns : List CreateTableColumn
deriving Repr, DecidableEq

inductive InsertSource where
  | values (rows : List (List AstExpression))
  | selectSource (stmt : SelectStatement)

structure InsertStatement where
  table : AstTable
  into_columns : Option (List (List Nat))
  source : InsertSource

inductive Statement where
  | create (s : CreateTableStatement)
  | insert (s : InsertStatement)
  | selectStmt (s : SelectStatement)

/-- `TempDb`. -/
structure TempDb where
  tables : List Table

/-- `ExecuteStatementResponse`. -/
inductive StatementResponse where
  | created
  | inserted (count : Nat)
  | selectResp (column_names : List Identifier) (rows : List (List Variant))
deriving Repr, DecidableEq

/-- `fn variant_to_data` (tempdb/mod.rs): NULL handling, then
`value.to_bytes(column_type).unwrap()` — the `crash` is that unwrap. -/
def variant_to_data (value : Variant) (column_type : DbType) (nullable : Bool) :
    PRes (Except Unit (List Nat × Option Bool)) :=
  match value.is_null, nullable with
  | true, true => .ok (.ok ([], some true))
  | true, false => .ok (.error ())    -- "cannot insert NULL into column ..."
  | false, _ =>
    PRes.bind (value.to_bytes column_type) fun bs? =>
      match bs? with
      | some bs => .ok (.ok (bs, if nullable then some false else none))
      | none => .crash                -- .unwrap() on Err
  
/-- `TempDb::create_table`.  The `Identifier::new(..).unwrap()`s crash on
invalid identifiers. -/
def create_table (db : TempDb) (stmt : CreateTableStatement) :
    PRes (Except Unit (StatementResponse × TempDb)) :=
  if stmt.table.database_name.isSome then .crash    -- unimplemented!()
  else
    match normalize stmt.table.table_name with
    | none => .crash                                -- .unwrap()
    | some table_name =>
      let rec buildColumns : List CreateTableColumn → Nat →
          PRes (Except Unit (List Column))
        | [], _ => .ok (.ok [])
        | column :: rest, i =>
          match normalize column.column_name, normalize column.type_name with
          | some name, some type_name =>
            let sizeStep : Except Unit (Option (Option Nat)) :=
              match column.type_array_size with
              | some (some s) =>
                match parseU64 s with
                | some v => .ok (some (some v))
                | none => .error ()                 -- "not a valid number"
              | some none => .ok (some none)
              | none => .ok none
            (match sizeStep with
             | .error _ => .ok (.error ())
             | .ok type_array_size =>
               match DbType.from_identifier type_name type_array_size with
               | none => .ok (.error ())            -- "not a valid column type"
               | some dbtype =>
                 let nullable := column.constraints.any (· = .nullable)
                 PRes.bind (buildColumns rest (i + 1)) fun r =>
                   match r with
                   | .error _ => .ok (.error ())
                   | .ok cols => .ok (.ok (⟨i, name, dbtype, nullable⟩ :: cols)))
          | _, _ => .crash                          -- .unwrap()
      PRes.bind (buildColumns stmt.columns 0) fun cols? =>
        match cols? with
        | .error _ => .ok (.error ())
        | .ok columns =>
          -- `add_table`: duplicate names are an error
          if db.tables.any (fun t => t.name = table_name) then .ok (.error ())
          else .ok (.ok (.created,
            ⟨db.tables ++ [{ name := table_name, columns := columns,
                             next_rowid := 1, rowid_index := [] }]⟩))

/-- `TempDb::get_table_mut` (lookup half; mutation is by replacement). -/
def get_table (db : TempDb) (table_name : List Nat) : Except Unit Table :=
  match normalize table_name with
  | none => .error ()
  | some ident =>
    match findTableByName db.tables ident with
    | some t => .ok t
    | none => .error ()

/-- Replace a table by name. -/
def putTable (db : TempDb) (t : Table) : TempDb :=
  ⟨db.tables.map (fun u => if u.name = t.name then t else u)⟩

/-- One INSERT row: place the expressions by column index, evaluate each
cell (compile, execute, encode), defaulting unspecified columns. -/
def insertOneRow (db : TempDb) (table : Table) (astIndexToColumn : List Nat)
    (row : List AstExpression) : PRes (Except Unit Table) :=
  if astIndexToColumn.length ≠ row.length then .ok (.error ())
  else
    let exprs : List (Option AstExpression) :=
      (row.zip astIndexToColumn).foldl
        (fun acc (e, idx) => acc.set idx (some e))
        (table.columns.map (fun _ => none))
    let rec buildCells : List (Column × Option AstExpression) →
        PRes (Except Unit (List (List Nat × Option Bool)))
      | [] => .ok (.ok [])
      | (column, cell) :: rest =>
        let cellStep : PRes (Except Unit (List Nat × Option Bool)) :=
          match cell with
          | some expr =>
            (match compile_ast_expression db.tables expr with
             | .error .compilerPanic => .crash
             | .error _ => .ok (.error ())
             | .ok sexpr =>
               match execute_expression db.tables sexpr with
               | .error .crash => .crash
               | .error .err => .ok (.error ())
               | .ok value => variant_to_data value column.dbtype column.nullable)
          | none =>
            let is_null := if column.nullable then some true else none
            .ok (.ok (column.dbtype.get_default, is_null))
        PRes.bind cellStep fun c? =>
          match c? with
          | .error _ => .ok (.error ())
          | .ok cellData =>
            PRes.bind (buildCells rest) fun r =>
              match r with
              | .error _ => .ok (.error ())
              | .ok cells => .ok (.ok (cellData :: cells))
    PRes.bind (buildCells (table.columns.zip exprs)) fun cells? =>
      match cells? with
      | .error _ => .ok (.error ())
      | .ok cells =>
        PRes.bind (table.insert_row cells) fun t? =>
          match t? with
          | some t => .ok (.ok t)
          | none => .ok (.error ())               -- ValidationError

/-- `TempDb::insert_into`. -/
def insert_into (db : TempDb) (stmt : InsertStatement) :
    PRes (Except Unit (StatementResponse × TempDb)) :=
  match get_table db stmt.table.table_name with
  | .error _ => .ok (.error ())
  | .ok table =>
    let astIndex? : PRes (Except Unit (List Nat)) :=
      match stmt.into_columns with
      | some v =>
        let rec go : List (List Nat) → PRes (Except Unit (List Nat))
          | [] => .ok (.ok [])
          | column_name :: rest =>
            match normalize column_name with
            | none => .crash                      -- Identifier::new(..).unwrap()
            | some ident =>
              match table.columns.find? (fun c => c.name = ident) with
              | none => .ok (.error ())           -- "column not in table"
              | some column =>
                PRes.bind (go rest) fun r =>
                  match r with
                  | .error _ => .ok (.error ())
                  | .ok is_ => .ok (.ok (column.offset :: is_))
        go v
      | none => .ok (.ok (List.range table.columns.length))
    PRes.bind astIndex? fun idx? =>
      match idx? with
      | .error _ => .ok (.error ())
      | .ok astIndexToColumn =>
        match stmt.source with
        | .values rows =>
          let rec goRows (db : TempDb) (count : Nat) :
              List (List AstExpression) → PRes (Except Unit (StatementResponse × TempDb))
            | [] => .ok (.ok (.inserted count, db))
            | row :: rest =>
              match get_table db stmt.table.table_name with
              | .error _ => .ok (.error ())
              | .ok table =>
                PRes.bind (insertOneRow db table astIndexToColumn row) fun t? =>
                  match t? with
                  | .error _ => .ok (.error ())
                  | .ok t => goRows (putTable db t) (count + 1) rest
          goRows db 0 rows
        | .selectSource _ => .crash               -- unimplemented!()

/-- `TempDb::select`. -/
def selectStatement (db : TempDb) (ord : List GroupBucket → List GroupBucket)
    (stmt : SelectStatement) : PRes (Except Unit StatementResponse) :=
  match compile_select db.tables stmt with
  | .error .compilerPanic => .crash
  | .error _ => .ok (.error ())
  | .ok plan =>
    match execute_query_plan db.tables ord plan.expr with
    | .error .crash => .crash
    | .error .err => .ok (.error ())
    | .ok rows => .ok (.ok (.selectResp plan.out_column_names rows))

/-- `TempDb::execute_statement`. -/
def execute_statement (db : TempDb) (ord : List GroupBucket → List GroupBucket)
    (stmt : Statement) : PRes (Except Unit (StatementResponse × TempDb)) :=
  match stmt with
  | .create s => create_table db s
  | .insert s => insert_into db s
  | .selectStmt s =>
    PRes.bind (selectStatement db ord s) fun r =>
      match r with
      | .error _ => .ok (.error ())
      | .ok resp => .ok (.ok (resp, db))

/-- Run a statement list in sequence (stopping at the first error). -/
def runStatements (db : TempDb) (ord : List GroupBucket → List GroupBucket) :
    List Statement → PRes (Except Unit TempDb)
  | [] => .ok (.ok db)
  | stmt :: rest =>
    PRes.bind (execute_statement db ord stmt) fun r =>
      match r with
      | .error _ => .ok (.error ())
      | .ok (_, db) => runStatements db ord rest

end LlamaDb


namespace LlamaDb

/-! ### Definitions used by the claim statements -/

/-- The spec's "lexical or numeric order" of two same-typed values
(§4.1 `compare`): numeric for integers and floats, lexicographic for byte
arrays and strings. -/
def sameTypeOrder : Variant → Variant → Option Int
  | .unsignedInteger l, .unsignedInteger r => some (Variant.cmpN l r)
  | .signedInteger l, .signedInteger r => some (Variant.cmpI l r)
  | .float l, .float r => some (if f64Lt l r then -1 else if f64Lt r l then 1 else 0)
  | .bytes l, .bytes r => some (bytesCmp l r)
  | .stringLiteral l, .stringLiteral r => some (bytesCmp l r)
  | _, _ => none

/-- The pairs of value variant and `DbType` that denote the same type
(the identity-cast group of §4.1; NULL has no byte representation). -/
def variantMatchesType : Variant → DbType → Prop
  | .bytes _, .byteDynamic => True
  | .stringLiteral _, .string => True
  | .signedInteger _, .integer true _ => True
  | .unsignedInteger _, .integer false _ => True
  | .float _, .f64 => True
  | _, _ => False

instance (v : Variant) (t : DbType) : Decidable (variantMatchesType v t) := by
  cases v <;> cases t <;> simp [variantMatchesType] <;> first
    | infer_instance
    | (rename_i b _; cases b <;> simp <;> infer_instance)

/-- The values a given `DbType`'s encoding can represent losslessly:
integers within the byte width, floats other than `-0.0` (whose encoding
the source cannot decode). -/
def fitsType : Variant → DbType → Prop
  | .signedInteger x, .integer true n =>
    1 ≤ n ∧ n ≤ 8 ∧ -(2 ^ (8 * n - 1) : Int) ≤ x ∧ x < 2 ^ (8 * n - 1)
  | .unsignedInteger x, .integer false n => 1 ≤ n ∧ n ≤ 8 ∧ x < 2 ^ (8 * n)
  | .float bits, .f64 => bits ≠ f64NegZero
  | _, _ => True

mutual

/-- All `(source_id, column_offset)` pairs of the `ColumnField` nodes in a
plan expression. -/
def collectColumnFields : SExpr → List (Nat × Nat)
  | .columnField sid off => [(sid, off)]
  | .scan _ _ yf => collectColumnFields yf
  | .map _ a b => collectColumnFields a ++ collectColumnFields b
  | .tempGroupBy _ a gvs b =>
    collectColumnFields a ++ collectList gvs ++ collectColumnFields b
  | .yieldExpr fs => collectList fs
  | .sif chains else_ =>
    collectChains chains ++
      (match else_ with
       | some e => collectColumnFields e
       | none => [])
  | .unaryOpE _ e => collectColumnFields e
  | .binaryOpE _ l r => collectColumnFields l ++ collectColumnFields r
  | .aggregateOpE _ _ v => collectColumnFields v
  | .countAll _ => []
  | .leftJoin _ a p b _ =>
    collectColumnFields a ++ collectColumnFields p ++ collectColumnFields b
  | .value _ => []

def collectList : List SExpr → List (Nat × Nat)
  | [] => []
  | e :: rest => collectColumnFields e ++ collectList rest

def collectChains : List (SExpr × SExpr) → List (Nat × Nat)
  | [] => []
  | (p, y) :: rest =>
    collectColumnFields p ++ collectColumnFields y ++ collectChains rest

end

/-- The frames of a scope chain, innermost first. -/
def scopeFrames : SourceScope → List (List ScopeTable)
  | .mk parent tables _ =>
    tables :: (match parent with
               | some p => scopeFrames p
               | none => [])

/-! #### The concrete inputs of the scenario claims -/

/-- Column name `k`. -/
def kName : List Nat := [107]
/-- Column name `v`. -/
def vName : List Nat := [118]
/-- Table name `s`. -/
def sName : List Nat := [115]

/-- `CREATE TABLE s(k string, v int)`. -/
def c2Create : Statement := .create {
  table := ⟨none, sName⟩,
  columns := [
    { column_name := kName, type_name := [115, 116, 114, 105, 110, 103],
      type_array_size := none, constraints := [] },
    { column_name := vName, type_name := [105, 110, 116],
      type_array_size := none, constraints := [] }] }

/-- `INSERT INTO s VALUES ('a',1),('a',2),('b',5),('c',1)`. -/
def c2Insert : Statement := .insert {
  table := ⟨none, sName⟩,
  into_columns := none,
  source := .values [
    [.stringLiteral [97], .number [49]],
    [.stringLiteral [97], .number [50]],
    [.stringLiteral [98], .number [53]],
    [.stringLiteral [99], .number [49]]] }

/-- `SELECT k, sum(v) FROM s GROUP BY k HAVING sum(v) > 2`. -/
def c2Select : SelectStatement := .mk
  [.expr (.ident kName) none,
   .expr (.functionCall [115, 117, 109] [.ident vName]) none]
  (.cross [.table ⟨none, sName⟩ none])
  none
  [.ident kName]
  (some (.binaryOp .greaterThan
    (.functionCall [115, 117, 109] [.ident vName]) (.number [50])))
  []

/-- The row `('a', 3.0)` (3.0 is bit pattern `0x4008000000000000`). -/
def c2RowA : List Variant := [.stringLiteral [97], .float 0x4008000000000000]

/-- The row `('b', 5.0)` (5.0 is bit pattern `0x4014000000000000`). -/
def c2RowB : List Variant := [.stringLiteral [98], .float 0x4014000000000000]

/-- `SELECT -k FROM s GROUP BY k` (the remap-miss input). -/
def c3Select : SelectStatement := .mk
  [.expr (.unaryOp .negate (.ident kName)) none]
  (.cross [.table ⟨none, sName⟩ none])
  none
  [.ident kName]
  none
  []

/-- The table `s(k string, v int)` as `create_table` builds it (before any
insert).  `int` maps to a 4-byte signed integer. -/
def sTable : Table := {
  name := sName,
  columns := [
    { offset := 0, name := kName, dbtype := .string, nullable := false },
    { offset := 1, name := vName, dbtype := .integer true 4, nullable := false }],
  next_rowid := 1,
  rowid_index := [] }

/-- The database state after `c2Create` and `c2Insert`: four rows, each key
`rowid(8) ++ k-bytes ++ v-bytes ++ k-length(8)`. -/
def c2Database : TempDb := ⟨[{
  name := sName,
  columns := [
    { offset := 0, name := kName, dbtype := .string, nullable := false },
    { offset := 1, name := vName, dbtype := .integer true 4, nullable := false }],
  next_rowid := 5,
  rowid_index := [
    [0, 0, 0, 0, 0, 0, 0, 1, 97, 0, 128, 0, 0, 1, 0, 0, 0, 0, 0, 0, 0, 2],
    [0, 0, 0, 0, 0, 0, 0, 2, 97, 0, 128, 0, 0, 2, 0, 0, 0, 0, 0, 0, 0, 2],
    [0, 0, 0, 0, 0, 0, 0, 3, 98, 0, 128, 0, 0, 5, 0, 0, 0, 0, 0, 0, 0, 2],
    [0, 0, 0, 0, 0, 0, 0, 4, 99, 0, 128, 0, 0, 1, 0, 0, 0, 0, 0, 0, 0, 2]] }]⟩

end LlamaDb

namespace LlamaDb

/-! ## Verification

Helper lemmas, then one theorem per claim (witnesses and counterexamples
alongside). -/

/-- Push a concrete state through a `CompM` bind. -/
theorem compM_bind_apply {α β : Type} (x : CompM α) (f : α → CompM β)
    (st : CompilerSharedState) :
    (x >>= f) st = match x st with
      | .ok (a, st2) => f a st2
      | .error e => .error e := by
  show Except.bind (x st) _ = _
  cases x st with
  | ok a => cases a; rfl
  | error e => rfl

theorem compM_pure_apply {α : Type} (a : α) (st : CompilerSharedState) :
    (pure a : CompM α) st = .ok (a, st) := rfl

theorem compM_get_apply (st : CompilerSharedState) :
    (get : CompM CompilerSharedState) st = .ok (st, st) := rfl

theorem compM_set_apply (s st : CompilerSharedState) :
    (set s : CompM PUnit) st = .ok (⟨⟩, s) := rfl

theorem compM_throw_apply {α : Type} (e : CompileErr) (st : CompilerSharedState) :
    (throw e : CompM α) st = .error e := rfl

theorem execM_bind_ok {α β : Type} (a : α) (f : α → ExecM β) :
    ((Except.ok a : ExecM α) >>= f) = f a := rfl

theorem execM_bind_error {α β : Type} (e : ExecErr) (f : α → ExecM β) :
    ((Except.error e : ExecM α) >>= f) = .error e := rfl

theorem execM_pure {α : Type} (a : α) : (pure a : ExecM α) = .ok a := rfl

/-- `f as i64` always produces a SignedInteger. -/
theorem truncF64_signed_shape (bits : Nat) :
    ∃ z, Variant.truncF64 true bits = .signedInteger z := by
  unfold Variant.truncF64
  cases f64Classify bits <;> simp

/-- `f as u64` always produces an UnsignedInteger. -/
theorem truncF64_unsigned_shape (bits : Nat) :
    ∃ n, Variant.truncF64 false bits = .unsignedInteger n := by
  unfold Variant.truncF64
  cases f64Classify bits <;> simp

/-- C1 (amended): `compare(a, b)` returns None whenever `a` is Null, but a
Null on the right is NOT symmetric: `b = Null` compares as the rendered
string "NULL" when `a` is a string (the `(e, DbType::String)` cast arm),
and returns None for the other left types only because the Null-to-numeric
casts fail.  Otherwise `b` is cast to `a`'s type; a failed cast gives None,
and a successful one compares the two same-typed values in lexical or
numeric order. -/
theorem c1_null_comparisons_amended : ∀ a b : Variant,
    (a = .null → Variant.compare a b = .ok none) ∧
    (b = .null → ∀ s, a = .stringLiteral s →
        Variant.compare a b = .ok (some (bytesCmp s [78, 85, 76, 76]))) ∧
    (b = .null → a ≠ .null → (∀ s, a ≠ .stringLiteral s) →
        Variant.compare a b = .ok none) ∧
    (Variant.cast b a.get_dbtype = .ok none → Variant.compare a b = .ok none) ∧
    (∀ r, Variant.cast b a.get_dbtype = .ok (some r) → a ≠ .null → r ≠ .null →
        Variant.compare a b = .ok (sameTypeOrder a r)) := by
  intro a b
  refine ⟨?_, ?_, ?_, ?_, ?_⟩
  · rintro rfl; cases b <;> rfl
  · rintro rfl s rfl; rfl
  · rintro rfl hnn hns
    cases a with
    | null => exact (hnn rfl).elim
    | stringLiteral s => exact (hns s rfl).elim
    | bytes v => rfl
    | signedInteger v => rfl
    | unsignedInteger v => rfl
    | float v => rfl
  · intro h
    simp only [Variant.compare]
    rw [h, PRes.bind_ok]
  · intro r h hnn hrn
    simp only [Variant.compare]
    rw [h, PRes.bind_ok]
    cases a with
    | null => exact (hnn rfl).elim
    | bytes v =>
      cases b with
      | null => simp [Variant.get_dbtype, Variant.cast] at h
      | bytes w =>
        simp only [Variant.get_dbtype, Variant.cast, Variant.from_bytes] at h
        split at h <;>
          simp only [PRes.ok.injEq, Option.some.injEq, reduceCtorEq] at h
        subst h; rfl
      | stringLiteral s => simp [Variant.get_dbtype, Variant.cast] at h
      | signedInteger w => simp [Variant.get_dbtype, Variant.cast] at h
      | unsignedInteger w => simp [Variant.get_dbtype, Variant.cast] at h
      | float f => simp [Variant.get_dbtype, Variant.cast] at h
    | stringLiteral s =>
      cases b <;>
        simp only [Variant.get_dbtype, Variant.cast, PRes.ok.injEq,
          Option.some.injEq] at h <;>
        subst h <;> rfl
    | signedInteger v =>
      cases b with
      | null => simp [Variant.get_dbtype, Variant.cast] at h
      | bytes w =>
        simp only [Variant.get_dbtype, Variant.cast, Variant.from_bytes] at h
        split at h
        · simp only [show (1 ≤ 8 ∧ 8 ≤ 8) = True by simp, if_true,
            PRes.ok.injEq, Option.some.injEq] at h
          subst h; rfl
        · simp only [PRes.ok.injEq, reduceCtorEq] at h
      | stringLiteral s => simp [Variant.get_dbtype, Variant.cast] at h
      | signedInteger w =>
        simp only [Variant.get_dbtype, Variant.cast, PRes.ok.injEq,
          Option.some.injEq] at h
        subst h; rfl
      | unsignedInteger w =>
        simp only [Variant.get_dbtype, Variant.cast, PRes.ok.injEq,
          Option.some.injEq] at h
        subst h; rfl
      | float f =>
        obtain ⟨z, hz⟩ := truncF64_signed_shape f
        simp only [Variant.get_dbtype, Variant.cast, hz, PRes.ok.injEq,
          Option.some.injEq] at h
        subst h; rfl
    | unsignedInteger v =>
      cases b with
      | null => simp [Variant.get_dbtype, Variant.cast] at h
      | bytes w =>
        simp only [Variant.get_dbtype, Variant.cast, Variant.from_bytes] at h
        split at h
        · simp only [show (1 ≤ 8 ∧ 8 ≤ 8) = True by simp, if_true,
            PRes.ok.injEq, Option.some.injEq] at h
          subst h; rfl
        · simp only [PRes.ok.injEq, reduceCtorEq] at h
      | stringLiteral s => simp [Variant.get_dbtype, Variant.cast] at h
      | signedInteger w =>
        simp only [Variant.get_dbtype, Variant.cast, PRes.ok.injEq,
          Option.some.injEq] at h
        subst h; rfl
      | unsignedInteger w =>
        simp only [Variant.get_dbtype, Variant.cast, PRes.ok.injEq,
          Option.some.injEq] at h
        subst h; rfl
      | float f =>
        obtain ⟨z, hz⟩ := truncF64_unsigned_shape f
        simp only [Variant.get_dbtype, Variant.cast, hz, PRes.ok.injEq,
          Option.some.injEq] at h
        subst h; rfl
    | float v =>
      cases b with
      | null => simp [Variant.get_dbtype, Variant.cast] at h
      | bytes w =>
        simp only [Variant.get_dbtype, Variant.cast, Variant.from_bytes] at h
        split at h
        · split at h
          · simp only [reduceCtorEq] at h
          · simp only [PRes.ok.injEq, Option.some.injEq] at h
            subst h; rfl
        · simp only [PRes.ok.injEq, reduceCtorEq] at h
      | stringLiteral s => simp [Variant.get_dbtype, Variant.cast] at h
      | signedInteger w =>
        simp only [Variant.get_dbtype, Variant.cast, PRes.ok.injEq,
          Option.some.injEq] at h
        subst h; rfl
      | unsignedInteger w =>
        simp only [Variant.get_dbtype, Variant.cast, PRes.ok.injEq,
          Option.some.injEq] at h
        subst h; rfl
      | float f =>
        simp only [Variant.get_dbtype, Variant.cast, PRes.ok.injEq,
          Option.some.injEq] at h
        subst h; rfl

/-- The Map-as-scalar `(first, count)` fold never replaces a row it has
already latched. -/
theorem scalar_fold_nonzero (rows : List (List Variant)) (r : List Variant)
    (c : Nat) (h : c ≠ 0) :
    rows.foldl (fun (acc : Option (List Variant) × Nat) row =>
      (if acc.2 = 0 then some row else acc.1, acc.2 + 1)) (some r, c)
      = (some r, c + rows.length) := by
  induction rows generalizing c with
  | nil => simp
  | cons row rest ih =>
    simp only [List.foldl_cons, if_neg h]
    rw [ih (c + 1) (Nat.succ_ne_zero c)]
    simp only [List.length_cons, Prod.mk.injEq]
    exact ⟨trivial, by omega⟩

/-- The Map-as-scalar fold computes the head row and the row count. -/
theorem scalar_fold (rows : List (List Variant)) :
    rows.foldl (fun (acc : Option (List Variant) × Nat) row =>
      (if acc.2 = 0 then some row else acc.1, acc.2 + 1)) (none, 0)
      = (rows.head?, rows.length) := by
  cases rows with
  | nil => rfl
  | cons row rest =>
    have h1 : (row :: rest).foldl (fun (acc : Option (List Variant) × Nat) row =>
        (if acc.2 = 0 then some row else acc.1, acc.2 + 1)) (none, 0)
        = rest.foldl (fun (acc : Option (List Variant) × Nat) row =>
        (if acc.2 = 0 then some row else acc.1, acc.2 + 1)) (some row, 1) := rfl
    rw [h1, scalar_fold_nonzero rest row 1 one_ne_zero]
    simp only [List.head?_cons, List.length_cons, Prod.mk.injEq]
    exact ⟨trivial, by omega⟩

/-- C6: `resolve_value` on a Map node (scalar subquery): run `yield_in_fn`
to completion; exactly one yielded row binds `source_id` to that row and
resolves `yield_out_fn` in the extended environment; zero rows or more than
one row is an execution error; an error from the inner plan propagates. -/
theorem c6_map_scalar_contract : ∀ (db : List Table) (ord : List GroupBucket → List GroupBucket)
    (sid : Nat) (yin yout : SExpr) (env : Env),
    (∀ row, execute db ord yin env = .ok [row] →
        resolveValue db ord (.map sid yin yout) env
          = resolveValue db ord yout ((sid, .row row) :: env)) ∧
    (∀ rows, execute db ord yin env = .ok rows → rows.length ≠ 1 →
        resolveValue db ord (.map sid yin yout) env = .error .err) ∧
    (∀ e, execute db ord yin env = .error e →
        resolveValue db ord (.map sid yin yout) env = .error e) := by
  intro db ord sid yin yout env
  refine ⟨?_, ?_, ?_⟩
  · intro row h
    simp only [resolveValue, h, execM_bind_ok, scalar_fold]
    rfl
  · intro rows h hne
    simp only [resolveValue, h, execM_bind_ok, scalar_fold]
    rw [if_neg hne]
  · intro e h
    simp only [resolveValue, h, execM_bind_error]

/-- Witness for C6: an inner plan yielding exactly the one empty row. -/
theorem c6_map_scalar_witness :
    resolveValue [] (fun b => b) (.map 0 (.yieldExpr []) (.value .null)) []
      = resolveValue [] (fun b => b) (.value .null) ((0, .row []) :: []) :=
  (c6_map_scalar_contract [] (fun b => b) 0 (.yieldExpr []) (.value .null) []).1 []
    (by simp [execute, resolveList, execM_pure, execM_bind_ok])

/-- C1 (counterexample to the claim as stated): comparing the string "A"
with Null does not return None — the Null is cast to the string "NULL" and
compared lexically, giving Some(-1). -/
theorem c1_counterexample_null_operand :
    Variant.compare (.stringLiteral [65]) .null = .ok (some (-1)) ∧
    (PRes.ok (some (-1 : Int)) : PRes (Option Int)) ≠ .ok none :=
  ⟨rfl, by decide⟩

/-- Witness for C1 at a concrete input: the string "A" against Null. -/
theorem c1_amended_witness :
    Variant.compare (.stringLiteral [65]) .null
      = .ok (some (bytesCmp [65] [78, 85, 76, 76])) :=
  (c1_null_comparisons_amended (.stringLiteral [65]) .null).2.1 rfl [65] rfl

set_option maxRecDepth 8000 in
set_option maxHeartbeats 2000000 in
/-- C3: the claim fails on the program as written.  Compiling
`SELECT -k FROM s GROUP BY k` produces a `TempGroupBy` whose grouped source
id is 1, yet whose `yield_out_fn` still contains `ColumnField (0, 0)` —
source 0 being the pre-group `Scan` source of the same query (visible as the
scan node inside `yield_in_fn`), not an outer-scope binding (the outer scope
is empty).  The remap iterator's catch-all arm skips `UnaryOp` children, so
the reference under the negation survives the rewrite. -/
theorem c3_pre_group_column_field_survives_remap :
    compile_select [sTable] c3Select = .ok
      { expr := .tempGroupBy 1
          (.scan sName 0 (.yieldExpr [.columnField 0 0, .columnField 0 1]))
          [.columnField 1 0]
          (.yieldExpr [.unaryOpE .negate (.columnField 0 0)]),
        out_column_names := [[95, 48]] } ∧
    (0, 0) ∈ collectColumnFields
      (.yieldExpr [.unaryOpE .negate (.columnField 0 0)]) ∧
    (0 : Nat) ≠ 1 := by
  refine ⟨?_, by decide, by decide⟩
  simp only [compile_select, compile, from_where, ast_table_or_subquery_to, crossGo,
    from_where_cross, joinsGo, from_where_join, exprListGo, selectCols, groupByHaving,
    ast_expression_to_sexpression, sTable, c3Select, sName, kName, vName,
    compM_bind_apply, compM_pure_apply, compM_get_apply, compM_set_apply,
    compM_throw_apply, StateT.run,
    new_identifier, new_source_id, new_query_id, new_aggregated_source_id,
    get_query_id_from_source_id, assocLookup]
  rfl

/-- C4: the claim fails on the program as written.  `Avg::feed`/`Sum::feed`
run `value.to_f64().unwrap()`, which panics on a non-null string value; and
`variant_to_data` runs `value.to_bytes(column_type).unwrap()`, which panics
when the INSERTed value cannot be cast to the column type (a string into a
4-byte integer column).  Neither failure is returned as a typed error. -/
theorem c4_aggregate_and_insert_panics :
    AggState.feed (.sum 0 0) (.stringLiteral [120]) = .crash ∧
    AggState.feed (.avg 0 0) (.stringLiteral [120]) = .crash ∧
    variant_to_data (.stringLiteral [97, 98, 99]) (.integer true 4) false = .crash :=
  ⟨rfl, rfl, rfl⟩

/-- Every three-valued-logic value is -1, 0 or 1. -/
theorem to_3vl_cases (a : Variant) :
    a.to_3vl = -1 ∨ a.to_3vl = 0 ∨ a.to_3vl = 1 := by
  cases a <;> simp only [Variant.to_3vl] <;> (try split) <;> decide

/-- `from_3vl` round-trips through `to_3vl` on legal truth values. -/
theorem bind_from_3vl_to_3vl (t : Int) (h : t = -1 ∨ t = 0 ∨ t = 1) :
    PRes.bind (Variant.from_3vl t) (fun v => .ok v.to_3vl) = .ok t := by
  rcases h with h | h | h <;> subst h <;> rfl

/-- C5: Kleene logic.  For all values `a`, `b`: AND is the minimum and OR
the maximum of the operand truth values, NOT is negation, and every
comparison operator with Null on the left returns Null (the 3VL unknown). -/
theorem c5_kleene_logic_min_max_not : ∀ a b : Variant,
    PRes.bind (Variant.andOp a b) (fun v => .ok v.to_3vl)
      = .ok (min a.to_3vl b.to_3vl) ∧
    PRes.bind (Variant.orOp a b) (fun v => .ok v.to_3vl)
      = .ok (max a.to_3vl b.to_3vl) ∧
    PRes.bind (Variant.notOp a) (fun v => .ok v.to_3vl) = .ok (-a.to_3vl) ∧
    Variant.equals .null b = .ok .null ∧
    Variant.not_equals .null b = .ok .null ∧
    Variant.less_than .null b = .ok .null ∧
    Variant.greater_than .null b = .ok .null ∧
    Variant.less_than_or_equal .null b = .ok .null ∧
    Variant.greater_than_or_equal .null b = .ok .null := by
  intro a b
  have ha := to_3vl_cases a
  have hb := to_3vl_cases b
  refine ⟨?_, ?_, ?_, ?_, ?_, ?_, ?_, ?_, ?_⟩
  · simp only [Variant.andOp]
    rw [show (if a.to_3vl < b.to_3vl then a.to_3vl else b.to_3vl)
        = min a.to_3vl b.to_3vl by split <;> omega]
    exact bind_from_3vl_to_3vl _ (by omega)
  · simp only [Variant.orOp]
    rw [show (if a.to_3vl > b.to_3vl then a.to_3vl else b.to_3vl)
        = max a.to_3vl b.to_3vl by split <;> omega]
    exact bind_from_3vl_to_3vl _ (by omega)
  · simp only [Variant.notOp]
    exact bind_from_3vl_to_3vl _ (by omega)
  · cases b <;> rfl
  · cases b <;> rfl
  · cases b <;> rfl
  · cases b <;> rfl
  · cases b <;> rfl
  · cases b <;> rfl

/-- C8: the claim fails on the program as written for F64.  `write_dbfloat`
tests `value < 0.0`, which is false for `-0.0`, so `-0.0` (bit pattern
`0x8000000000000000`) is encoded by the non-negative branch as all-zero
bytes — strictly below the encoding of `-1.0` (bit pattern
`0xBFF0000000000000`), although `-1.0 < -0.0` numerically.  Byte order and
numeric order disagree. -/
theorem c8_neg_zero_encoding_breaks_sort_order :
    f64Lt 0xBFF0000000000000 f64NegZero = true ∧
    f64Lt f64NegZero 0 = false ∧
    write_dbfloat 0xBFF0000000000000 = [64, 15, 255, 255, 255, 255, 255, 255] ∧
    write_dbfloat f64NegZero = [0, 0, 0, 0, 0, 0, 0, 0] ∧
    bytesLt (write_dbfloat f64NegZero) (write_dbfloat 0xBFF0000000000000) = true :=
  ⟨by decide, by decide, by decide, by decide, by decide⟩

end LlamaDb

namespace LlamaDb
/-- The byte-extraction mask arithmetic of `write_udbinteger`. -/
theorem byteExtract (value m : Nat) :
    (value &&& (0xFF <<< m)) >>> m = value / 2 ^ m % 256 := by
  have h : value / 2 ^ m % 256 = (value >>> m) % 2 ^ 8 := by
    rw [Nat.shiftRight_eq_div_pow]; norm_num
  rw [h]
  apply Nat.eq_of_testBit_eq
  intro i
  rw [Nat.testBit_shiftRight, Nat.testBit_and, Nat.testBit_shiftLeft,
    Nat.testBit_mod_two_pow, Nat.testBit_shiftRight]
  rw [show (255 : Nat) = 2 ^ 8 - 1 by norm_num, Nat.testBit_two_pow_sub_one]
  rw [Nat.add_sub_cancel_left]
  by_cases hi : i < 8
  · simp [hi, Bool.and_comm]
  · simp [hi]

/-- `write_udbinteger` fills exactly `len` bytes. -/
theorem write_udbinteger_length (value len : Nat) :
    (write_udbinteger value len).length = len := by
  simp [write_udbinteger]

/-- Peel the most significant byte off a big-endian write. -/
theorem write_udbinteger_succ (value n : Nat) :
    write_udbinteger value (n + 1)
      = (value / 2 ^ (n * 8) % 256) :: write_udbinteger value n := by
  simp only [write_udbinteger, List.range_succ_eq_map, List.map_cons, List.map_map]
  congr 1
  · rw [show n + 1 - 1 - 0 = n by omega, byteExtract]
  · apply List.map_congr_left
    intro i _
    simp only [Function.comp_apply]
    rw [show n + 1 - 1 - (i + 1) = n - 1 - i by omega]

/-- `|||` after a shift is addition when the low part fits. -/
theorem lor_of_lt (a b k : Nat) (hb : b < 2 ^ k) :
    (a <<< k) ||| b = a * 2 ^ k + b := by
  rw [Nat.shiftLeft_eq, show a * 2 ^ k + b = 2 ^ k * a + b by ring]
  apply Nat.eq_of_testBit_eq
  intro i
  rw [Nat.testBit_or, Nat.testBit_mul_pow_two_add _ hb]
  rw [show a * 2 ^ k = 2 ^ k * a by ring]
  rw [Nat.testBit_mul_pow_two]
  by_cases hi : k ≤ i
  · have : b.testBit i = false :=
      Nat.testBit_lt_two_pow (lt_of_lt_of_le hb (Nat.pow_le_pow_right (by omega) hi))
    simp [hi, this, Nat.not_lt.mpr hi]
  · simp [hi, Nat.lt_of_not_le hi]

/-- The big-endian read fold over a written buffer. -/
theorem read_fold_write (n value acc : Nat) :
    (write_udbinteger value n).foldl (fun prev v => (prev <<< 8) ||| v) acc
      = acc * 2 ^ (8 * n) + value % 2 ^ (8 * n) := by
  induction n generalizing acc with
  | zero => simp [write_udbinteger, Nat.mod_one]
  | succ m ih =>
    rw [write_udbinteger_succ, List.foldl_cons]
    rw [show m * 8 = 8 * m by ring]
    rw [lor_of_lt acc (value / 2 ^ (8 * m) % 256) 8 (by omega)]
    rw [ih]
    have hsplit : value % 2 ^ (8 * (m + 1))
        = value % 2 ^ (8 * m) + 2 ^ (8 * m) * (value / 2 ^ (8 * m) % 2 ^ 8) := by
      rw [show 8 * (m + 1) = 8 * m + 8 by ring, pow_add]
      exact Nat.mod_mul
    rw [hsplit, show (256 : Nat) = 2 ^ 8 by norm_num,
      show 8 * (m + 1) = 8 * m + 8 by ring, pow_add]
    ring

/-- Unsigned round-trip: reading a written buffer returns the value mod
its capacity. -/
theorem read_write_udbinteger (value n : Nat) :
    read_udbinteger (write_udbinteger value n) = value % 2 ^ (8 * n) := by
  rw [read_udbinteger, read_fold_write]
  simp



/-- `wrapI64` is the identity on in-range values. -/
theorem wrapI64_eq_self (z : Int) (h1 : -(2 ^ 63) ≤ z) (h2 : z < 2 ^ 63) :
    wrapI64 z = z := by
  unfold wrapI64
  omega

/-- The order-preserving bias: flipping the top bit of the two's-complement
pattern, reduced to the field width, is `value + 2^k`. -/
theorem biased_xor (k : Nat) (v : Int) (hk : k ≤ 63)
    (h1 : -(2 ^ k : Int) ≤ v) (h2 : v < 2 ^ k) :
    (u64ofI64 v ^^^ 2 ^ k) % 2 ^ (k + 1) = (v + 2 ^ k).toNat := by
  have hcast : ((2 : Int)) ^ k = ((2 ^ k : Nat) : Int) := by push_cast; ring
  have hpow : (2 : Int) ^ k ≤ 2 ^ 63 := pow_le_pow_right (by norm_num) hk
  have hk1 : (2 : Nat) ^ (k + 1) = 2 * 2 ^ k := by rw [pow_succ]; ring
  rw [hcast] at h1 h2 hpow ⊢
  rcases le_or_lt 0 v with hv | hv
  · have hmod : v % (2 ^ 64 : Int) = v := Int.emod_eq_of_lt hv (by omega)
    have hu : u64ofI64 v = v.toNat := by unfold u64ofI64; rw [hmod]
    have hlt : v.toNat < 2 ^ k := by omega
    rw [hu, xor_two_pow_of_testBit_false (Nat.testBit_lt_two_pow hlt)]
    rw [Nat.mod_eq_of_lt (by omega)]
    omega
  · have hmod : v % (2 ^ 64 : Int) = v + 2 ^ 64 := by omega
    have hu : u64ofI64 v = (v + 2 ^ 64).toNat := by unfold u64ofI64; rw [hmod]
    have hone : 1 ≤ (2 : Nat) ^ (63 - k) := Nat.one_le_two_pow
    have hA : (2 : Nat) ^ (63 - k) * 2 ^ (k + 1) = 2 ^ 64 := by
      rw [← pow_add]; congr 1; omega
    have hA2 : ((2 : Nat) ^ (63 - k) - 1) * 2 ^ (k + 1) = 2 ^ 64 - 2 ^ (k + 1) := by
      rw [Nat.sub_mul, hA, one_mul]
    have hub : (v + 2 ^ 64).toNat < 2 ^ 64 := by omega
    have hlb : 2 ^ 64 - 2 ^ k ≤ (v + 2 ^ 64).toNat := by omega
    have ht : (v + 2 ^ 64).toNat - (2 ^ 64 - 2 ^ k) < 2 ^ k := by omega
    have hdecomp : (v + 2 ^ 64).toNat
        = ((2 : Nat) ^ (63 - k) - 1) * 2 ^ (k + 1) + 1 * 2 ^ k
          + ((v + 2 ^ 64).toNat - (2 ^ 64 - 2 ^ k)) := by omega
    rw [hu, hdecomp,
      xor_two_pow_decomp _ 1 _ k (by omega) ht]
    have hval : ((2 : Nat) ^ (63 - k) - 1) * 2 ^ (k + 1) + (1 - 1) * 2 ^ k
          + ((v + 2 ^ 64).toNat - (2 ^ 64 - 2 ^ k))
        = (v + ((2 ^ k : Nat) : Int)).toNat
          + ((2 : Nat) ^ (63 - k) - 1) * 2 ^ (k + 1) := by omega
    rw [hval, Nat.add_mul_mod_self_right]
    exact Nat.mod_eq_of_lt (by omega)

/-- Signed round-trip through the biased encoding. -/
theorem read_write_sdbinteger (v : Int) (n : Nat) (hn1 : 1 ≤ n) (hn8 : n ≤ 8)
    (h1 : -(2 ^ (8 * n - 1) : Int) ≤ v) (h2 : v < 2 ^ (8 * n - 1)) :
    read_sdbinteger (write_sdbinteger v n) = v := by
  have hk : 8 * n - 1 ≤ 63 := by omega
  have hb := biased_xor (8 * n - 1) v hk h1 h2
  have hcast : ((2 : Int)) ^ (8 * n - 1) = ((2 ^ (8 * n - 1) : Nat) : Int) := by
    push_cast; ring
  rw [hcast] at h1 h2
  simp only [write_sdbinteger, read_sdbinteger]
  rw [write_udbinteger_length]
  rw [show n * 8 - 1 = 8 * n - 1 by omega]
  rw [read_write_udbinteger]
  rw [show (2 : Nat) ^ (8 * n) = 2 ^ ((8 * n - 1) + 1) by congr 1; omega]
  rw [hb]
  by_cases hn : n = 8
  · subst hn
    norm_num at h1 h2 ⊢
    unfold i64ofU64 wrapI64
    split <;> omega
  · have hple : (2 : Nat) ^ (8 * n - 1) ≤ 2 ^ 55 :=
      Nat.pow_le_pow_right (by norm_num) (by omega)
    unfold i64ofU64 wrapI64
    split <;> omega

/-- The first byte of an 8-byte write. -/
theorem write_udbinteger_headD (x : Nat) :
    (write_udbinteger x 8).headD 0 = x / 2 ^ 56 % 256 := by
  rw [show (8 : Nat) = 7 + 1 from rfl, write_udbinteger_succ]
  norm_num

/-- Float round-trip for every bit pattern except `-0.0` (whose encoding
decodes to a NaN pattern instead). -/
theorem read_write_dbfloat (bits : Nat) (hlt : bits < 2 ^ 64)
    (hnz : bits ≠ f64NegZero) :
    read_dbfloat (write_dbfloat bits) = bits := by
  unfold f64NegZero at hnz
  unfold write_dbfloat
  by_cases hneg : f64Lt bits 0
  · have hgt : 2 ^ 63 < bits := by
      simp only [f64Lt, f64Key, decide_eq_true_eq] at hneg
      split at hneg <;> split at hneg <;> omega
    rw [if_pos hneg]
    have he : bits ^^^ (2 ^ 64 - 1) = 2 ^ 64 - 1 - bits := xor_ones hlt
    rw [he]
    unfold read_dbfloat
    rw [write_udbinteger_headD, read_write_udbinteger]
    rw [Nat.mod_eq_of_lt (show 2 ^ 64 - 1 - bits < 2 ^ (8 * 8) by norm_num; omega)]
    rw [if_pos (by omega)]
    rw [xor_ones (show 2 ^ 64 - 1 - bits < 2 ^ 64 by omega)]
    omega
  · have hlt63 : bits < 2 ^ 63 := by
      simp only [f64Lt, f64Key, decide_eq_true_eq, not_lt] at hneg
      split at hneg <;> omega
    have he : bits ^^^ 2 ^ 63 = bits + 2 ^ 63 :=
      xor_two_pow_of_testBit_false (Nat.testBit_lt_two_pow hlt63)
    rw [if_neg hneg, he]
    unfold read_dbfloat
    rw [write_udbinteger_headD, read_write_udbinteger]
    rw [Nat.mod_eq_of_lt (show bits + 2 ^ 63 < 2 ^ (8 * 8) by norm_num; omega)]
    rw [if_neg (by omega)]
    have hbit : (bits + 2 ^ 63).testBit 63 = true := by
      rw [Nat.testBit_to_div_mod]
      simp only [decide_eq_true_eq]
      omega
    rw [xor_two_pow_of_testBit_true hbit]
    omega



instance (v : Variant) (t : DbType) : Decidable (fitsType v t) := by
  cases v <;> cases t <;> simp [fitsType] <;> first
    | infer_instance
    | (rename_i b _; cases b <;> simp [fitsType] <;> infer_instance)

/-- C7 (amended): the encode/decode round-trip holds for a value and a
MATCHING type whose encoding can represent it: integers within the byte
width of the column (the original claim asserted the round-trip even for
out-of-width integers, which wrap), and floats other than `-0.0`. -/
theorem c7_typed_roundtrip_amended :
    ∀ (v : Variant) (t : DbType), v.wellFormed → variantMatchesType v t →
    fitsType v t →
    ∃ bs, Variant.to_bytes v t = .ok (some bs) ∧
      Variant.from_bytes t bs = .ok (some v) := by
  intro v t hwf hm hf
  cases v with
  | null => cases t <;> simp [variantMatchesType] at hm
  | bytes b =>
    cases t <;> simp [variantMatchesType] at hm
    exact ⟨b, rfl, rfl⟩
  | stringLiteral s =>
    cases t <;> simp [variantMatchesType] at hm
    simp only [Variant.wellFormed] at hwf
    refine ⟨s ++ [0], rfl, ?_⟩
    simp only [Variant.from_bytes, List.getLast?_concat, List.dropLast_concat]
    rw [if_pos ⟨by simp, trivial⟩]
    simp [utf8Lossy, hwf]
  | signedInteger x =>
    cases t with
    | integer signed n =>
      cases signed with
      | false => simp [variantMatchesType] at hm
      | true =>
        simp only [fitsType] at hf
        obtain ⟨hn1, hn8, hlo, hhi⟩ := hf
        refine ⟨write_sdbinteger x n, ?_, ?_⟩
        · simp only [Variant.to_bytes, Variant.cast, PRes.bind_ok]
          rw [if_pos ⟨hn1, hn8⟩]
        · have hlen : (write_sdbinteger x n).length = n := by
            simp only [write_sdbinteger]; exact write_udbinteger_length _ _
          simp only [Variant.from_bytes]
          rw [if_pos hlen, if_pos ⟨hn1, hn8⟩,
            read_write_sdbinteger x n hn1 hn8 hlo hhi]
          simp
    | null => simp [variantMatchesType] at hm
    | byteDynamic => simp [variantMatchesType] at hm
    | byteFixed k => simp [variantMatchesType] at hm
    | f64 => simp [variantMatchesType] at hm
    | string => simp [variantMatchesType] at hm
  | unsignedInteger x =>
    cases t with
    | integer signed n =>
      cases signed with
      | true => simp [variantMatchesType] at hm
      | false =>
        simp only [fitsType] at hf
        obtain ⟨hn1, hn8, hx⟩ := hf
        refine ⟨write_udbinteger x n, ?_, ?_⟩
        · simp only [Variant.to_bytes, Variant.cast, PRes.bind_ok]
          rw [if_pos ⟨hn1, hn8⟩]
        · simp only [Variant.from_bytes]
          rw [if_pos (write_udbinteger_length x n), if_pos ⟨hn1, hn8⟩,
            read_write_udbinteger]
          rw [Nat.mod_eq_of_lt hx]
          simp
    | null => simp [variantMatchesType] at hm
    | byteDynamic => simp [variantMatchesType] at hm
    | byteFixed k => simp [variantMatchesType] at hm
    | f64 => simp [variantMatchesType] at hm
    | string => simp [variantMatchesType] at hm
  | float bits =>
    cases t <;> simp [variantMatchesType] at hm
    simp only [Variant.wellFormed] at hwf
    simp only [fitsType] at hf
    refine ⟨write_dbfloat bits, rfl, ?_⟩
    have hlen : (write_dbfloat bits).length = 8 := by
      unfold write_dbfloat; split <;> exact write_udbinteger_length _ _
    simp only [Variant.from_bytes]
    rw [if_pos hlen, read_write_dbfloat bits hwf.1 hf]
    simp [hwf.2]

/-- C7 (counterexample to the claim as stated): `to_bytes` of the
UnsignedInteger 256 at a 1-byte unsigned column succeeds with `[0]`, which
decodes to 0, not 256; and `to_bytes` of the float `-0.0` succeeds but its
decoding panics on the NaN unwrap. -/
theorem c7_counterexample_width_overflow :
    Variant.to_bytes (.unsignedInteger 256) (.integer false 1) = .ok (some [0]) ∧
    Variant.from_bytes (.integer false 1) [0] = .ok (some (.unsignedInteger 0)) ∧
    (Variant.unsignedInteger 0) ≠ (.unsignedInteger 256) ∧
    Variant.to_bytes (.float f64NegZero) .f64
      = .ok (some [0, 0, 0, 0, 0, 0, 0, 0]) ∧
    Variant.from_bytes .f64 [0, 0, 0, 0, 0, 0, 0, 0] = .crash := by
  refine ⟨by decide, by decide, by decide, by decide, by decide⟩

/-- Witness for C7 at a concrete input: SignedInteger -1 in 1 byte. -/
theorem c7_roundtrip_witness :
    ∃ bs, Variant.to_bytes (.signedInteger (-1)) (.integer true 1)
        = .ok (some bs) ∧
      Variant.from_bytes (.integer true 1) bs
        = .ok (some (.signedInteger (-1))) :=
  c7_typed_roundtrip_amended (.signedInteger (-1)) (.integer true 1) (by decide) (by decide)
    (by decide)

end LlamaDb

namespace LlamaDb
/-- Inside-out scope lookup, characterised by the per-frame candidate
lists: `one v` means the nearest non-empty frame holds exactly `[v]`,
`ambiguous` means it holds two or more candidates, `notFound` means every
frame is empty of candidates. -/
theorem lookup_characterization (name : Identifier) :
    ∀ (k : Nat) (scope : SourceScope), (scopeFrames scope).length ≤ k →
    (scope.get_column_offset name = .notFound ↔
       ∀ c ∈ (scopeFrames scope).map (fun f => frameCandidates f name), c = []) ∧
    (∀ v, scope.get_column_offset name = .one v ↔
       ∃ i, (∀ j, j < i →
           ((scopeFrames scope).map (fun f => frameCandidates f name)).getD j [] = []) ∧
         ((scopeFrames scope).map (fun f => frameCandidates f name)).getD i [] = [v]) ∧
    (scope.get_column_offset name = .ambiguous ↔
       ∃ i, (∀ j, j < i →
           ((scopeFrames scope).map (fun f => frameCandidates f name)).getD j [] = []) ∧
         2 ≤ (((scopeFrames scope).map (fun f => frameCandidates f name)).getD i []).length) := by
  intro k
  induction k with
  | zero =>
    intro scope h
    cases scope with
    | mk parent tables aliases =>
      cases parent <;> simp [scopeFrames] at h
  | succ k ih =>
    intro scope h
    cases scope with
    | mk parent tables aliases =>
      cases parent with
      | none =>
        simp only [scopeFrames, SourceScope.get_column_offset, List.map_cons,
          List.map_nil]
        rcases hfc : frameCandidates tables name with _ | ⟨v0, _ | ⟨v1, rest⟩⟩
        · refine ⟨by simp, ?_, ?_⟩
          · intro v
            constructor
            · intro hv; cases hv
            · rintro ⟨i, hj, hi⟩
              match i, hi with
              | 0, hi => simp at hi
              | i + 1, hi => simp at hi
          · constructor
            · intro hv; cases hv
            · rintro ⟨i, hj, hi⟩
              match i, hi with
              | 0, hi => simp at hi
              | i + 1, hi => simp at hi
        · refine ⟨?_, ?_, ?_⟩
          · constructor
            · intro hv; cases hv
            · intro hall
              have := hall (frameCandidates tables name) (by simp [hfc])
              rw [hfc] at this; cases this
          · intro v
            constructor
            · intro hv
              cases hv
              exact ⟨0, by omega, by simp⟩
            · rintro ⟨i, hj, hi⟩
              match i, hi with
              | 0, hi => simp at hi; subst hi; rfl
              | i + 1, hi =>
                have := hj 0 (by omega)
                simp [hfc] at this
          · constructor
            · intro hv; cases hv
            · rintro ⟨i, hj, hi⟩
              match i, hi with
              | 0, hi => simp [hfc] at hi
              | i + 1, hi =>
                have := hj 0 (by omega)
                simp [hfc] at this
        · refine ⟨?_, ?_, ?_⟩
          · constructor
            · intro hv; cases hv
            · intro hall
              have := hall (frameCandidates tables name) (by simp [hfc])
              rw [hfc] at this; cases this
          · intro v
            constructor
            · intro hv; cases hv
            · rintro ⟨i, hj, hi⟩
              match i, hi with
              | 0, hi => simp [hfc] at hi
              | i + 1, hi =>
                have := hj 0 (by omega)
                simp [hfc] at this
          · constructor
            · intro hv
              exact ⟨0, by omega, by simp [hfc]⟩
            · intro hv; rfl
      | some p =>
        simp only [scopeFrames, SourceScope.get_column_offset, List.map_cons]
        rcases hfc : frameCandidates tables name with _ | ⟨v0, _ | ⟨v1, rest⟩⟩
        · have hlen : (scopeFrames p).length ≤ k := by
            simp only [scopeFrames, List.length_cons] at h
            omega
          obtain ⟨ih1, ih2, ih3⟩ := ih p hlen
          refine ⟨by simpa using ih1, ?_, ?_⟩
          · intro v
            rw [ih2 v]
            constructor
            · rintro ⟨i, hj, hi⟩
              refine ⟨i + 1, ?_, by simpa using hi⟩
              intro j hja
              match j with
              | 0 => simp
              | j + 1 => simpa using hj j (by omega)
            · rintro ⟨i, hj, hi⟩
              match i, hi with
              | 0, hi => simp at hi
              | i + 1, hi =>
                exact ⟨i, fun j hja => by simpa using hj (j + 1) (by omega),
                  by simpa using hi⟩
          · rw [ih3]
            constructor
            · rintro ⟨i, hj, hi⟩
              refine ⟨i + 1, ?_, by simpa using hi⟩
              intro j hja
              match j with
              | 0 => simp
              | j + 1 => simpa using hj j (by omega)
            · rintro ⟨i, hj, hi⟩
              match i, hi with
              | 0, hi => simp at hi
              | i + 1, hi =>
                exact ⟨i, fun j hja => by simpa using hj (j + 1) (by omega),
                  by simpa using hi⟩
        · refine ⟨?_, ?_, ?_⟩
          · constructor
            · intro hv; cases hv
            · intro hall
              have := hall (frameCandidates tables name) (by simp [hfc])
              rw [hfc] at this; cases this
          · intro v
            constructor
            · intro hv
              cases hv
              exact ⟨0, by omega, by simp⟩
            · rintro ⟨i, hj, hi⟩
              match i, hi with
              | 0, hi => simp at hi; subst hi; rfl
              | i + 1, hi =>
                have := hj 0 (by omega)
                simp [hfc] at this
          · constructor
            · intro hv; cases hv
            · rintro ⟨i, hj, hi⟩
              match i, hi with
              | 0, hi => simp [hfc] at hi
              | i + 1, hi =>
                have := hj 0 (by omega)
                simp [hfc] at this
        · refine ⟨?_, ?_, ?_⟩
          · constructor
            · intro hv; cases hv
            · intro hall
              have := hall (frameCandidates tables name) (by simp [hfc])
              rw [hfc] at this; cases this
          · intro v
            constructor
            · intro hv; cases hv
            · rintro ⟨i, hj, hi⟩
              match i, hi with
              | 0, hi => simp [hfc] at hi
              | i + 1, hi =>
                have := hj 0 (by omega)
                simp [hfc] at this
          · constructor
            · intro hv
              exact ⟨0, by omega, by simp [hfc]⟩
            · intro hv; rfl



/-- C9: the bare-column lookup scans frames inside-out and an inner unique
match wins regardless of outer frames; the Ident compile arm classifies
`notFound` as ColumnDoesNotExist, `ambiguous` as AmbiguousColumnName, and
the unique case emits `ColumnField(source_id, offset)`. -/
theorem c9_bare_column_lookup_inside_out :
    ∀ (scope : SourceScope) (name : Identifier),
    ((scope.get_column_offset name = .notFound ↔
        ∀ c ∈ (scopeFrames scope).map (fun f => frameCandidates f name), c = []) ∧
     (∀ v, scope.get_column_offset name = .one v ↔
        ∃ i, (∀ j, j < i →
            ((scopeFrames scope).map (fun f => frameCandidates f name)).getD j [] = []) ∧
          ((scopeFrames scope).map (fun f => frameCandidates f name)).getD i [] = [v]) ∧
     (scope.get_column_offset name = .ambiguous ↔
        ∃ i, (∀ j, j < i →
            ((scopeFrames scope).map (fun f => frameCandidates f name)).getD j [] = []) ∧
          2 ≤ (((scopeFrames scope).map (fun f => frameCandidates f name)).getD i []).length)) ∧
    (∀ (db : List Table) (query_id : Nat) (s : List Nat) (gi : GroupsInfo)
        (st : CompilerSharedState), normalize s = some name →
      (scope.get_column_offset name = .notFound →
        ast_expression_to_sexpression db query_id (.ident s) scope gi st
          = .error (.columnDoesNotExist name)) ∧
      (scope.get_column_offset name = .ambiguous →
        ast_expression_to_sexpression db query_id (.ident s) scope gi st
          = .error (.ambiguousColumnName name)) ∧
      (∀ sid off q, scope.get_column_offset name = .one (sid, off) →
        assocLookup st.source_id_to_query_id sid = some q →
        ast_expression_to_sexpression db query_id (.ident s) scope gi st
          = .ok ((.columnField sid off, gi.add_query_id q), st))) := by
  intro scope name
  refine ⟨lookup_characterization name (scopeFrames scope).length scope le_rfl,
    ?_⟩
  intro db query_id s gi st hnorm
  refine ⟨?_, ?_, ?_⟩
  · intro hres
    simp only [ast_expression_to_sexpression, new_identifier, hnorm,
      compM_bind_apply, compM_pure_apply, hres, compM_throw_apply]
  · intro hres
    simp only [ast_expression_to_sexpression, new_identifier, hnorm,
      compM_bind_apply, compM_pure_apply, hres, compM_throw_apply]
  · intro sid off q hres hq
    simp only [ast_expression_to_sexpression, new_identifier, hnorm,
      compM_bind_apply, compM_pure_apply, hres, get_query_id_from_source_id,
      compM_get_apply, hq]

/-- Witness for C9: a one-frame scope binding column `k` of source 5. -/
theorem c9_lookup_witness :
    ast_expression_to_sexpression [] 0 (.ident kName)
      (.mk none [⟨5, [kName]⟩] [sName]) ⟨none⟩ ⟨[(5, 0)], [], 6, 1⟩
      = .ok ((.columnField 5 0, GroupsInfo.add_query_id ⟨none⟩ 0),
             ⟨[(5, 0)], [], 6, 1⟩) :=
  ((c9_bare_column_lookup_inside_out (.mk none [⟨5, [kName]⟩] [sName]) kName).2 [] 0 kName ⟨none⟩
      ⟨[(5, 0)], [], 6, 1⟩ rfl).2.2 5 0 0 rfl rfl

end LlamaDb
